import Mathlib

/-!
Shallow embedding of the color-palette-generator core
(`src/color/color-parser.js`, `src/color/wcag-calculator.js`,
`src/color/validation-engine.js`, `src/color/swatch-generator.js`,
the cache manager and the thread manager), together with theorems
settling the specification claims.

Modelling conventions:
* JavaScript numbers are modelled as exact rationals (`ℚ`); `Infinity`
  sentinels are modelled with `WithTop ℚ`.
* `Math.pow (x, 2.4)` is transcendental, so every definition that needs it
  is parameterised by a function `g : ℚ → ℚ` standing for
  `fun x => Math.pow ((x + 0.055) / 1.055, 2.4)`s inner power evaluated at
  the already-shifted argument; concretely `g c` models
  `Math.pow (c, 2.4)`.  All structural claims hold for every `g`.
* Fallible JavaScript code (functions that `throw`) is modelled with
  `Except String`.
* `Date.now ()` is modelled by passing the current time explicitly.
-/

/-- Decidable equality for `Except`, used to evaluate the model on
concrete inputs. -/
instance {ε α : Type} [DecidableEq ε] [DecidableEq α] :
    DecidableEq (Except ε α) := fun a b =>
  match a, b with
  | .ok x, .ok y => decidable_of_iff (x = y) (by simp)
  | .error x, .error y => decidable_of_iff (x = y) (by simp)
  | .ok _, .error _ => isFalse (by simp)
  | .error _, .ok _ => isFalse (by simp)

namespace CPG

/-! ## Color parser (`src/color/color-parser.js`) -/

/-- One hexadecimal digit, as tested by the regex class `[0-9A-Fa-f]`. -/
def isHexDigit (c : Char) : Bool :=
  c.isDigit || (('a' ≤ c && c ≤ 'f') || ('A' ≤ c && c ≤ 'F'))

/-- `ColorParser.isValidHex`: the regex
`^#?[0-9A-Fa-f]{3}$|^#?[0-9A-Fa-f]{6}$`. -/
def isValidHex (s : String) : Bool :=
  let cs := s.data
  let body := if cs.head? = some '#' then cs.tail else cs
  (body.length == 3 || body.length == 6) && body.all isHexDigit

/-- Numeric value of a hex digit (the digits reaching this point are valid,
as in the parseInt calls of `hexToRgb`). -/
def hexVal (c : Char) : ℕ :=
  if c.isDigit then c.toNat - '0'.toNat
  else if 'a' ≤ c && c ≤ 'f' then c.toNat - 'a'.toNat + 10
  else if 'A' ≤ c && c ≤ 'F' then c.toNat - 'A'.toNat + 10
  else 0

/-- `ColorParser.normalizeHex`: uppercase, force a leading `#`, expand
3-digit form to 6-digit form.  Errors when `isValidHex` fails. -/
def normalizeHex (s : String) : Except String String :=
  if isValidHex s then
    let cs := s.data
    let body := if cs.head? = some '#' then cs.tail else cs
    let up := body.map Char.toUpper
    match up with
    | [a, b, c] => .ok (String.mk ['#', a, a, b, b, c, c])
    | digits => .ok (String.mk ('#' :: digits))
  else
    .error ("Invalid hex color: " ++ s)

/-- The source list of HTML color names of `initializeHTMLColors`, in the
object-literal insertion order of the source. -/
def htmlColorList : List (String × String) :=
  [("aliceblue", "#F0F8FF"), ("antiquewhite", "#FAEBD7"), ("aqua", "#00FFFF"),
   ("aquamarine", "#7FFFD4"), ("azure", "#F0FFFF"), ("beige", "#F5F5DC"),
   ("bisque", "#FFE4C4"), ("black", "#000000"), ("blanchedalmond", "#FFEBCD"),
   ("blue", "#0000FF"), ("blueviolet", "#8A2BE2"), ("brown", "#A52A2A"),
   ("burlywood", "#DEB887"), ("cadetblue", "#5F9EA0"), ("chartreuse", "#7FFF00"),
   ("chocolate", "#D2691E"), ("coral", "#FF7F50"), ("cornflowerblue", "#6495ED"),
   ("cornsilk", "#FFF8DC"), ("crimson", "#DC143C"), ("cyan", "#00FFFF"),
   ("darkblue", "#00008B"), ("darkcyan", "#008B8B"), ("darkgoldenrod", "#B8860B"),
   ("darkgray", "#A9A9A9"), ("darkgreen", "#006400"), ("darkgrey", "#A9A9A9"),
   ("darkkhaki", "#BDB76B"), ("darkmagenta", "#8B008B"), ("darkolivegreen", "#556B2F"),
   ("darkorange", "#FF8C00"), ("darkorchid", "#9932CC"), ("darkred", "#8B0000"),
   ("darksalmon", "#E9967A"), ("darkseagreen", "#8FBC8F"), ("darkslateblue", "#483D8B"),
   ("darkslategray", "#2F4F4F"), ("darkslategrey", "#2F4F4F"), ("darkturquoise", "#00CED1"),
   ("darkviolet", "#9400D3"), ("deeppink", "#FF1493"), ("deepskyblue", "#00BFFF"),
   ("dimgray", "#696969"), ("dimgrey", "#696969"), ("dodgerblue", "#1E90FF"),
   ("firebrick", "#B22222"), ("floralwhite", "#FFFAF0"), ("forestgreen", "#228B22"),
   ("fuchsia", "#FF00FF"), ("gainsboro", "#DCDCDC"), ("ghostwhite", "#F8F8FF"),
   ("gold", "#FFD700"), ("goldenrod", "#DAA520"), ("gray", "#808080"),
   ("green", "#008000"), ("greenyellow", "#ADFF2F"), ("grey", "#808080"),
   ("honeydew", "#F0FFF0"), ("hotpink", "#FF69B4"), ("indianred", "#CD5C5C"),
   ("indigo", "#4B0082"), ("ivory", "#FFFFF0"), ("khaki", "#F0E68C"),
   ("lavender", "#E6E6FA"), ("lavenderblush", "#FFF0F5"), ("lawngreen", "#7CFC00"),
   ("lemonchiffon", "#FFFACD"), ("lightblue", "#ADD8E6"), ("lightcoral", "#F08080"),
   ("lightcyan", "#E0FFFF"), ("lightgoldenrodyellow", "#FAFAD2"), ("lightgray", "#D3D3D3"),
   ("lightgreen", "#90EE90"), ("lightgrey", "#D3D3D3"), ("lightpink", "#FFB6C1"),
   ("lightsalmon", "#FFA07A"), ("lightseagreen", "#20B2AA"), ("lightskyblue", "#87CEFA"),
   ("lightslategray", "#778899"), ("lightslategrey", "#778899"), ("lightsteelblue", "#B0C4DE"),
   ("lightyellow", "#FFFFE0"), ("lime", "#00FF00"), ("limegreen", "#32CD32"),
   ("linen", "#FAF0E6"), ("magenta", "#FF00FF"), ("maroon", "#800000"),
   ("mediumaquamarine", "#66CDAA"), ("mediumblue", "#0000CD"), ("mediumorchid", "#BA55D3"),
   ("mediumpurple", "#9370DB"), ("mediumseagreen", "#3CB371"), ("mediumslateblue", "#7B68EE"),
   ("mediumspringgreen", "#00FA9A"), ("mediumturquoise", "#48D1CC"), ("mediumvioletred", "#C71585"),
   ("midnightblue", "#191970"), ("mintcream", "#F5FFFA"), ("mistyrose", "#FFE4E1"),
   ("moccasin", "#FFE4B5"), ("navajowhite", "#FFDEAD"), ("navy", "#000080"),
   ("oldlace", "#FDF5E6"), ("olive", "#808000"), ("olivedrab", "#6B8E23"),
   ("orange", "#FFA500"), ("orangered", "#FF4500"), ("orchid", "#DA70D6"),
   ("palegoldenrod", "#EEE8AA"), ("palegreen", "#98FB98"), ("paleturquoise", "#AFEEEE"),
   ("palevioletred", "#DB7093"), ("papayawhip", "#FFEFD5"), ("peachpuff", "#FFDAB9"),
   ("peru", "#CD853F"), ("pink", "#FFC0CB"), ("plum", "#DDA0DD"),
   ("powderblue", "#B0E0E6"), ("purple", "#800080"), ("red", "#FF0000"),
   ("rosybrown", "#BC8F8F"), ("royalblue", "#4169E1"), ("saddlebrown", "#8B4513"),
   ("salmon", "#FA8072"), ("sandybrown", "#F4A460"), ("seagreen", "#2E8B57"),
   ("seashell", "#FFF5EE"), ("sienna", "#A0522D"), ("silver", "#C0C0C0"),
   ("skyblue", "#87CEEB"), ("slateblue", "#6A5ACD"), ("slategray", "#708090"),
   ("slategrey", "#708090"), ("snow", "#FFFAFA"), ("springgreen", "#00FF7F"),
   ("steelblue", "#4682B4"), ("tan", "#D2B48C"), ("teal", "#008080"),
   ("thistle", "#D8BFD8"), ("tomato", "#FF6347"), ("turquoise", "#40E0D0"),
   ("violet", "#EE82EE"), ("wheat", "#F5DEB3"), ("white", "#FFFFFF"),
   ("whitesmoke", "#F5F5F5"), ("yellow", "#FFFF00"), ("yellowgreen", "#9ACD32")]

/-- The deduplication fold of `initializeHTMLColors`: a name is kept only
when its (uppercased) hex value has not been seen for an earlier name
("Store unique hex values only"). -/
def dedupByHex : List (String × String) → List String → List (String × String)
  | [], _ => []
  | (name, hex) :: rest, seen =>
    let nh := String.mk (hex.data.map Char.toUpper)
    if seen.contains nh then dedupByHex rest seen
    else (String.mk (name.data.map Char.toLower), nh) :: dedupByHex rest (nh :: seen)

/-- The `htmlColors` map of the parser, as an insertion-ordered
association list. -/
def htmlColors : List (String × String) :=
  dedupByHex htmlColorList []

/-- The name normalisation of `htmlToHex`: lowercase and strip whitespace
(the regex `\s`). -/
def normalizeName (s : String) : String :=
  String.mk ((s.data.map Char.toLower).filter (fun c => !c.isWhitespace))

/-- `ColorParser.htmlToHex`. -/
def htmlToHex (colorName : String) : Option String :=
  (htmlColors.lookup (normalizeName colorName))

/-- `ColorParser.parseColor`: hex input first, then the name table,
otherwise an error. -/
def parseColor (color : String) : Except String String :=
  if isValidHex color then normalizeHex color
  else
    match htmlToHex color with
    | some hex => .ok hex
    | none => .error ("Unable to parse color: " ++ color)

/-- RGB triple, channels 0–255. -/
structure Rgb where
  r : ℕ
  g : ℕ
  b : ℕ
  deriving Repr, DecidableEq

/-- `ColorParser.hexToRgb`: 3-digit hexes expand by digit doubling,
6-digit hexes split into channel pairs, anything else throws. -/
def hexToRgb (hex : String) : Except String Rgb :=
  let body := hex.data.filter (fun c => c ≠ '#')
  match body with
  | [d0, d1, d2] =>
      .ok ⟨16 * hexVal d0 + hexVal d0, 16 * hexVal d1 + hexVal d1,
           16 * hexVal d2 + hexVal d2⟩
  | [d0, d1, d2, d3, d4, d5] =>
      .ok ⟨16 * hexVal d0 + hexVal d1, 16 * hexVal d2 + hexVal d3,
           16 * hexVal d4 + hexVal d5⟩
  | _ => .error ("Invalid hex color: " ++ hex)

/-- The gamma correction of `rgbToLuminance`;
`g` stands for `fun x => Math.pow (x, 2.4)`. -/
def gammaCorrect (g : ℚ → ℚ) (component : ℚ) : ℚ :=
  if component ≤ 3928 / 100000 then component / (1292 / 100)
  else g ((component + 55 / 1000) / (1055 / 1000))

/-- `ColorParser.rgbToLuminance`: channels to `[0,1]`, gamma correction,
weights 0.2126 / 0.7152 / 0.0722. -/
def rgbToLuminance (g : ℚ → ℚ) (rgb : Rgb) : ℚ :=
  let rLin := gammaCorrect g ((rgb.r : ℚ) / 255)
  let gLin := gammaCorrect g ((rgb.g : ℚ) / 255)
  let bLin := gammaCorrect g ((rgb.b : ℚ) / 255)
  2126 / 10000 * rLin + 7152 / 10000 * gLin + 722 / 10000 * bLin

/-- `ColorParser.hexToLuminance`. -/
def hexToLuminance (g : ℚ → ℚ) (hex : String) : Except String ℚ := do
  let rgb ← hexToRgb hex
  return rgbToLuminance g rgb

/-! ## WCAG calculator (`src/color/wcag-calculator.js`) -/

/-- WCAG level, the strings `AA`/`AAA` of the source. -/
inductive WcagLevel where
  | AA
  | AAA
  deriving Repr, DecidableEq

/-- Text size, the strings `normal`/`large` of the source. -/
inductive TextSize where
  | normal
  | large
  deriving Repr, DecidableEq

/-- The `thresholds` table of the `WCAGCalculator` constructor. -/
def thresholds : WcagLevel → TextSize → ℚ
  | .AA, .normal => 45 / 10
  | .AA, .large => 3
  | .AAA, .normal => 7
  | .AAA, .large => 45 / 10

/-- `Math.round (x * 100) / 100` (JavaScript `Math.round` is
floor of `x + 1/2`). -/
def round2 (q : ℚ) : ℚ :=
  (⌊q * 100 + 1 / 2⌋ : ℚ) / 100

/-- `WCAGCalculator.calculateContrast`: parse both colors, take
luminances, form `(lighter + 0.05) / (darker + 0.05)` and round to two
decimals. -/
def calculateContrast (g : ℚ → ℚ) (color1 color2 : String) :
    Except String ℚ := do
  let hex1 ← parseColor color1
  let hex2 ← parseColor color2
  let luminance1 ← hexToLuminance g hex1
  let luminance2 ← hexToLuminance g hex2
  let lighter := max luminance1 luminance2
  let darker := min luminance1 luminance2
  return round2 ((lighter + 5 / 100) / (darker + 5 / 100))

/-- Result record of `WCAGCalculator.checkCompliance`. -/
structure ComplianceResult where
  contrastValue : ℚ
  requiredValue : ℚ
  compliant : Bool
  level : WcagLevel
  textSize : TextSize
  color1 : String
  color2 : String
  deriving Repr, DecidableEq

/-- `WCAGCalculator.checkCompliance`. -/
def checkCompliance (g : ℚ → ℚ) (color1 color2 : String)
    (level : WcagLevel) (textSize : TextSize) :
    Except String ComplianceResult := do
  let contrastValue ← calculateContrast g color1 color2
  let requiredValue := thresholds level textSize
  let hex1 ← parseColor color1
  let hex2 ← parseColor color2
  return { contrastValue := contrastValue
           requiredValue := requiredValue
           compliant := decide (requiredValue ≤ contrastValue)
           level := level
           textSize := textSize
           color1 := hex1
           color2 := hex2 }

end CPG

namespace CPG

/-! ## Validation engine (`src/color/validation-engine.js`) -/

namespace ValidationEngine

/-- One entry of `details.adjacentPairs` in `validateWCAGCompliance`. -/
structure PairDetail where
  pairIdx : ℕ × ℕ
  colors : String × String
  contrastValue : ℚ
  compliant : Bool
  requiredValue : ℚ
  deriving Repr, DecidableEq

/-- Result of a single rule, as consumed by `validateSwatch`.
`detailsLowest` models `details.lowestContrast`, which only the
`wcag_compliance` rule provides (`none` models the field being absent,
`some ⊤` models `Infinity`). -/
structure RuleOutcome where
  valid : Bool
  errors : List String
  warnings : List String
  adjacentPairs : List PairDetail
  overallCompliant : Bool
  detailsLowest : Option (WithTop ℚ)
  deriving Repr, DecidableEq

/-- Accumulator state of the `validateWCAGCompliance` loop. -/
structure WcagAcc where
  valid : Bool
  errors : List String
  adjacentPairs : List PairDetail
  overallCompliant : Bool
  lowestContrast : WithTop ℚ
  deriving Repr, DecidableEq

/-- Body of the adjacent-pair loop of `validateWCAGCompliance` for
index `i` (the pair `(i, (i+1) % n)`). -/
def wcagStep (g : ℚ → ℚ) (colors : List String) (wcagLevel : WcagLevel)
    (textSize : TextSize) (acc : WcagAcc) (i : ℕ) : WcagAcc :=
  let nextIndex := (i + 1) % colors.length
  let color1 := colors.getD i ""
  let color2 := colors.getD nextIndex ""
  match checkCompliance g color1 color2 wcagLevel textSize with
  | .ok compliance =>
      { valid := acc.valid && compliance.compliant
        errors :=
          if compliance.compliant then acc.errors
          else acc.errors ++
            ["Adjacent colors " ++ color1 ++ " and " ++ color2 ++
             " do not meet standards"]
        adjacentPairs := acc.adjacentPairs ++
          [{ pairIdx := (i, nextIndex)
             colors := (color1, color2)
             contrastValue := compliance.contrastValue
             compliant := compliance.compliant
             requiredValue := compliance.requiredValue }]
        overallCompliant := acc.overallCompliant && compliance.compliant
        lowestContrast :=
          if (compliance.contrastValue : WithTop ℚ) < acc.lowestContrast
          then (compliance.contrastValue : WithTop ℚ)
          else acc.lowestContrast }
  | .error e =>
      { acc with
        valid := false
        errors := acc.errors ++
          ["Failed to calculate contrast for " ++ color1 ++ " and " ++
           color2 ++ ": " ++ e] }

/-- `ValidationEngine.validateWCAGCompliance`. -/
def validateWCAGCompliance (g : ℚ → ℚ) (colors : List String)
    (wcagLevel : WcagLevel) (textSize : TextSize) : RuleOutcome :=
  if colors.length < 2 then
    { valid := false
      errors := ["Swatch must have at least 2 colors"]
      warnings := []
      adjacentPairs := []
      overallCompliant := true
      detailsLowest := some ⊤ }
  else
    let final := (List.range colors.length).foldl
      (wcagStep g colors wcagLevel textSize)
      { valid := true, errors := [], adjacentPairs := []
        overallCompliant := true, lowestContrast := ⊤ }
    { valid := final.valid
      errors := final.errors
      warnings := []
      adjacentPairs := final.adjacentPairs
      overallCompliant := final.overallCompliant
      detailsLowest := some final.lowestContrast }

/-- The occurrence-count map of `validateNoDuplicates` (a JS `Map` in
insertion order, mapping a normalised color to its index list). -/
def addOccurrence (key : String) (idx : ℕ) :
    List (String × List ℕ) → List (String × List ℕ)
  | [] => [(key, [idx])]
  | (k, is) :: rest =>
      if k = key then (k, is ++ [idx]) :: rest
      else (k, is) :: addOccurrence key idx rest

/-- `ValidationEngine.validateNoDuplicates`.  `normalizeHex` throws on an
invalid color and that exception is not caught inside the rule, hence the
`Except`. -/
def validateNoDuplicates (colors : List String) :
    Except String RuleOutcome := do
  let counts ← colors.enum.foldlM
    (fun m ci => do
      let nh ← normalizeHex ci.2
      return addOccurrence nh ci.1 m)
    ([] : List (String × List ℕ))
  let dups := counts.filter (fun kv => 1 < kv.2.length)
  return { valid := dups.isEmpty
           errors := dups.map (fun kv => "Color " ++ kv.1 ++ " appears more than once")
           warnings := []
           adjacentPairs := []
           overallCompliant := true
           detailsLowest := none }

/-- Accumulator of the `validateMinContrast` loop. -/
structure MinContrastAcc where
  valid : Bool
  errors : List String
  deriving Repr, DecidableEq

/-- `ValidationEngine.validateMinContrast` (the per-pair try/catch is
internal, so the rule itself never throws). -/
def validateMinContrast (g : ℚ → ℚ) (colors : List String)
    (minContrast : Option ℚ) : RuleOutcome :=
  match minContrast with
  | none =>
      { valid := true, errors := [], warnings := ["No minimum contrast specified"]
        adjacentPairs := [], overallCompliant := true, detailsLowest := none }
  | some mc =>
      let final := (List.range colors.length).foldl
        (fun acc i =>
          let nextIndex := (i + 1) % colors.length
          match calculateContrast g (colors.getD i "") (colors.getD nextIndex "") with
          | .ok q =>
              if q < mc then
                { valid := false
                  errors := acc.errors ++ ["Contrast below required minimum"] }
              else acc
          | .error e =>
              { valid := false
                errors := acc.errors ++ ["Failed to calculate contrast: " ++ e] })
        ({ valid := true, errors := [] } : MinContrastAcc)
      { valid := final.valid, errors := final.errors, warnings := []
        adjacentPairs := [], overallCompliant := true, detailsLowest := none }

/-- `ValidationEngine.validateColorCount`. -/
def validateColorCount (colors : List String) (minColors maxColors : ℕ) :
    RuleOutcome :=
  { valid := decide (minColors ≤ colors.length) && decide (colors.length ≤ maxColors)
    errors :=
      (if colors.length < minColors then ["Swatch has too few colors"] else []) ++
      (if maxColors < colors.length then ["Swatch has too many colors"] else [])
    warnings := []
    adjacentPairs := []
    overallCompliant := true
    detailsLowest := none }

/-- `ValidationEngine.validateColorFormat` (per-color try/catch is
internal). -/
def validateColorFormat (colors : List String) : RuleOutcome :=
  let bad := colors.enum.filter (fun ci => !(parseColor ci.2).isOk)
  { valid := bad.isEmpty
    errors := bad.map (fun ci => "Invalid color at position " ++ toString ci.1 ++ ": " ++ ci.2)
    warnings := []
    adjacentPairs := []
    overallCompliant := true
    detailsLowest := none }

/-- Options accepted by `validateSwatch`, with the source defaults. -/
structure VOptions where
  wcagLevel : WcagLevel := .AA
  textSize : TextSize := .normal
  minContrast : Option ℚ := none
  maxColors : ℕ := 5
  minColors : ℕ := 2
  rules : List String :=
    ["wcag_compliance", "no_duplicates", "color_count", "color_format"]

/-- Result entry pushed onto `validationResult.results` for a rule that
ran without throwing. -/
structure RuleEntry where
  rule : String
  outcome : RuleOutcome
  deriving Repr, DecidableEq

/-- `ValidationReport` (the engine's `validationResult`).
`overallRating = none` models `null`. -/
structure Report where
  valid : Bool
  results : List RuleEntry
  errors : List String
  warnings : List String
  overallRating : Option (WithTop ℚ)
  deriving Repr, DecidableEq

/-- The rule registry built by `initializeDefaultRules`: dispatch from the
rule id to the rule body; `none` models an unknown rule id. -/
def runRule (g : ℚ → ℚ) (ruleId : String) (colors : List String)
    (opts : VOptions) : Option (Except String RuleOutcome) :=
  if ruleId = "wcag_compliance" then
    some (.ok (validateWCAGCompliance g colors opts.wcagLevel opts.textSize))
  else if ruleId = "no_duplicates" then
    some (validateNoDuplicates colors)
  else if ruleId = "min_contrast" then
    some (.ok (validateMinContrast g colors opts.minContrast))
  else if ruleId = "color_count" then
    some (.ok (validateColorCount colors opts.minColors opts.maxColors))
  else if ruleId = "color_format" then
    some (.ok (validateColorFormat colors))
  else none

/-- The per-rule body of the `rules.forEach` loop in `validateSwatch`,
including the surrounding try/catch. -/
def ruleStep (g : ℚ → ℚ) (colors : List String) (opts : VOptions)
    (report : Report) (ruleId : String) : Report :=
  match runRule g ruleId colors opts with
  | none =>
      { report with warnings := report.warnings ++ ["Unknown validation rule: " ++ ruleId] }
  | some (.ok outcome) =>
      { report with
        results := report.results ++ [{ rule := ruleId, outcome := outcome }]
        valid := report.valid && outcome.valid
        errors := if outcome.valid then report.errors else report.errors ++ outcome.errors
        warnings := report.warnings ++ outcome.warnings }
  | some (.error e) =>
      { report with
        valid := false
        errors := report.errors ++ ["Rule " ++ ruleId ++ " failed: " ++ e] }

/-- `ValidationEngine.calculateOverallRating`: `0` for an invalid report,
else the `lowestContrast` detail of the first `wcag_compliance` result if
that field exists and is truthy, else `null`. -/
def calculateOverallRating (report : Report) : Report :=
  if !report.valid then { report with overallRating := some 0 }
  else
    match report.results.find? (fun r => r.rule = "wcag_compliance") with
    | some r =>
        match r.outcome.detailsLowest with
        | some lc => if lc ≠ 0 then { report with overallRating := some lc }
                     else { report with overallRating := none }
        | none => { report with overallRating := none }
    | none => { report with overallRating := none }

/-- `ValidationEngine.validateSwatch`. -/
def validateSwatch (g : ℚ → ℚ) (colors : List String) (opts : VOptions) :
    Report :=
  let base : Report :=
    { valid := true, results := [], errors := [], warnings := [], overallRating := none }
  calculateOverallRating (opts.rules.foldl (ruleStep g colors opts) base)

end ValidationEngine

end CPG

namespace CPG

/-! ## Swatch generator (`src/color/swatch-generator.js`) -/

namespace SwatchGenerator

/-- Lexicographic comparison of strings by code units, the default
comparator of JavaScript `Array.prototype.sort`. -/
def charListLe : List Char → List Char → Bool
  | [], _ => true
  | _ :: _, [] => false
  | a :: as, b :: bs =>
      if a.toNat < b.toNat then true
      else if b.toNat < a.toNat then false
      else charListLe as bs

/-- Code-unit comparison on strings. -/
def strLe (a b : String) : Bool :=
  charListLe a.data b.data

/-- Insert into a sorted list (helper of the `Array.prototype.sort`
model). -/
def insertSorted (a : String) : List String → List String
  | [] => [a]
  | b :: bs => if strLe a b then a :: b :: bs else b :: insertSorted a bs

/-- Extensional model of `[...colors].sort()`: JavaScript sort with the
default comparator returns the code-unit-sorted rearrangement, which for
the total order `strLe` is exactly what insertion sort returns. -/
def sortJS : List String → List String
  | [] => []
  | a :: as => insertSorted a (sortJS as)

/-- `SwatchGenerator.getNormalizedKey`: sorted colors joined with `|`. -/
def getNormalizedKey (colors : List String) : String :=
  String.intercalate "|" (sortJS colors)

/-- `SwatchGenerator.generateRotations`:
`[...colors.slice(i), ...colors.slice(0, i)]` for each `i`. -/
def generateRotations (colors : List String) : List (List String) :=
  (List.range colors.length).map (fun i => colors.drop i ++ colors.take i)

/-- One entry of `swatch.adjacentContrasts`. -/
structure AdjacentContrast where
  pairIdx : ℕ × ℕ
  contrastValue : ℚ
  compliant : Bool
  deriving Repr, DecidableEq

/-- The generator's swatch object.  The random `id` produced by
`generateSwatchId` (wall clock + `Math.random`) is nondeterministic and
carries no information, so it is not modelled. -/
structure Swatch where
  colors : List String
  adjacentContrasts : List AdjacentContrast
  overallRating : WithTop ℚ
  compliant : Bool
  wcagLevel : WcagLevel
  deriving Repr, DecidableEq

/-- Accumulator of the adjacent-pair loop of the generator's
`validateSwatch`. -/
structure VsAcc where
  adjacentContrasts : List AdjacentContrast
  overallRating : WithTop ℚ
  compliant : Bool
  deriving Repr, DecidableEq

/-- Body of the adjacent-pair loop of the generator's `validateSwatch`
for index `i` (the pair `(i, (i+1) % n)`, default text size
`normal`). -/
def vsStep (g : ℚ → ℚ) (colors : List String) (wcagLevel : WcagLevel)
    (acc : VsAcc) (i : ℕ) : Except String VsAcc := do
  let nextIndex := (i + 1) % colors.length
  let contrastResult ← checkCompliance g (colors.getD i "")
    (colors.getD nextIndex "") wcagLevel .normal
  return { adjacentContrasts := acc.adjacentContrasts ++
             [{ pairIdx := (i, nextIndex)
                contrastValue := contrastResult.contrastValue
                compliant := contrastResult.compliant }]
           overallRating :=
             if (contrastResult.contrastValue : WithTop ℚ) < acc.overallRating
             then (contrastResult.contrastValue : WithTop ℚ)
             else acc.overallRating
           compliant := acc.compliant && contrastResult.compliant }

/-- The starting accumulator of the generator's `validateSwatch`. -/
def vsInit : VsAcc :=
  { adjacentContrasts := [], overallRating := ⊤, compliant := true }

/-- `SwatchGenerator.validateSwatch`: parse the colors, then fold the
cyclic adjacent pairs through `checkCompliance` (with the calculator's
default text size `normal`).  An unparseable color throws. -/
def validateSwatch (g : ℚ → ℚ) (colors : List String)
    (wcagLevel : WcagLevel) : Except String Swatch := do
  let parsed ← colors.mapM parseColor
  let final ← (List.range colors.length).foldlM (vsStep g colors wcagLevel) vsInit
  return { colors := parsed
           adjacentContrasts := final.adjacentContrasts
           overallRating := final.overallRating
           compliant := final.compliant
           wcagLevel := wcagLevel }

/-- The `results.stats` object of `generatePermutations`. -/
structure GenStats where
  generated : ℕ
  validated : ℕ
  compliant : ℕ
  duplicatesSkipped : ℕ
  deriving Repr, DecidableEq

/-- Mutable state threaded through `processBatch`: the instance's
`uniqueSwatches` set (a JS `Set` in insertion order) plus the parts of
the `results` object the batch mutates. -/
structure GenState where
  uniqueSwatches : List String
  validSwatches : List Swatch
  stats : GenStats
  deriving Repr, DecidableEq

/-- The fresh state of a newly constructed generator. -/
def initialGenState : GenState :=
  { uniqueSwatches := [], validSwatches := []
    stats := { generated := 0, validated := 0, compliant := 0, duplicatesSkipped := 0 } }

/-- `Set.prototype.add`: append if absent. -/
def setAdd (s : List String) (k : String) : List String :=
  if s.contains k then s else s ++ [k]

/-- Body of the per-rotation loop in `processBatch`: validate the
rotation, count it, and if compliant record the swatch and remember the
normalised key. -/
def processRotation (g : ℚ → ℚ) (wcagLevel : WcagLevel) (key : String)
    (st : GenState) (rotation : List String) : Except String GenState := do
  let swatchResult ← validateSwatch g rotation wcagLevel
  let st := { st with stats := { st.stats with validated := st.stats.validated + 1 } }
  if swatchResult.compliant then
    return { st with
             stats := { st.stats with compliant := st.stats.compliant + 1 }
             validSwatches := st.validSwatches ++ [swatchResult]
             uniqueSwatches := setAdd st.uniqueSwatches key }
  else
    return st

/-- The per-combination body of `processBatch`: count it, skip it when
its rotation-invariant key is already known, otherwise run every
rotation. -/
def processCombination (g : ℚ → ℚ) (wcagLevel : WcagLevel)
    (st : GenState) (combination : List String) : Except String GenState :=
  let st := { st with stats := { st.stats with generated := st.stats.generated + 1 } }
  let normalizedKey := getNormalizedKey combination
  if st.uniqueSwatches.contains normalizedKey then
    .ok { st with stats := { st.stats with duplicatesSkipped := st.stats.duplicatesSkipped + 1 } }
  else
    (generateRotations combination).foldlM
      (processRotation g wcagLevel normalizedKey) st

/-- `SwatchGenerator.processBatch`. -/
def processBatch (g : ℚ → ℚ) (wcagLevel : WcagLevel)
    (batch : List (List String)) (st : GenState) : Except String GenState :=
  batch.foldlM (processCombination g wcagLevel) st

/-- The recursion of `generateCombinations`: either `current` is full and
is emitted, or each remaining color in index order is taken (then the
search continues past it) or skipped. -/
def gcAux (count : ℕ) : List String → List String → List (List String)
  | current, rest =>
      if current.length = count then [current]
      else
        match rest with
        | [] => []
        | c :: rs => gcAux count (current ++ [c]) rs ++ gcAux count current rs

/-- `SwatchGenerator.generateCombinations`. -/
def generateCombinations (colors : List String) (count : ℕ) :
    List (List String) :=
  gcAux count [] colors

/-- The `batchSize = 100` slicing loop of `generatePermutations`. -/
def chunks100 : List (List String) → List (List (List String))
  | [] => []
  | c :: cs =>
      (c :: cs).take 100 :: chunks100 ((c :: cs).drop 100)
  termination_by l => l.length
  decreasing_by simp; omega

/-- The `results` object returned by `generatePermutations`
(`processingTime` is wall clock and is not modelled). -/
structure GenResults where
  colorCount : ℕ
  wcagLevel : WcagLevel
  totalCombinations : ℕ
  validSwatches : List Swatch
  stats : GenStats
  deriving Repr, DecidableEq

/-- `SwatchGenerator.generatePermutations`, for a freshly constructed
generator whose parser holds the color table `allColors`. -/
def generatePermutations (g : ℚ → ℚ) (allColors : List String)
    (colorCount : ℕ) (wcagLevel : WcagLevel) : Except String GenResults :=
  if colorCount < 2 ∨ 5 < colorCount then
    .error "Color count must be between 2 and 5"
  else do
    let combinations := generateCombinations allColors colorCount
    let st ← (chunks100 combinations).foldlM
      (fun st batch => processBatch g wcagLevel batch st) initialGenState
    return { colorCount := colorCount
             wcagLevel := wcagLevel
             totalCombinations := combinations.length
             validSwatches := st.validSwatches
             stats := st.stats }

/-- `SwatchGenerator.generateSpecificSwatch`: arity guard, duplicate
guard on the raw input strings (`[...new Set(colors)]`), then the
generator's `validateSwatch`.  (The store into `generatedSwatches` keyed
by the random id is not modelled.) -/
def generateSpecificSwatch (g : ℚ → ℚ) (colors : List String)
    (wcagLevel : WcagLevel) : Except String Swatch :=
  if colors.length < 2 ∨ 5 < colors.length then
    .error "Swatch must have 2-5 colors"
  else if colors.dedup.length ≠ colors.length then
    .error "Swatch cannot contain duplicate colors"
  else
    validateSwatch g colors wcagLevel

end SwatchGenerator

end CPG

namespace CPG

/-! ## Cache manager (the `CacheManager` module)

Payload bytes (`ArrayBuffer`) are modelled as `List ℕ`; `calculateSize`
is its `byteLength`, i.e. the list length.  The gzip
`CompressionStream` / `DecompressionStream` of the platform is outside
the repository, so the cache is parameterised by `compress` /
`decompress` functions.  Times are milliseconds passed explicitly. -/

namespace CacheManager

/-- Payload bytes. -/
abbrev Data := List ℕ

/-- The configuration fields of the `CacheManager` constructor that the
modelled operations read (defaults of the source; note that the source
initialiser `config.compressionEnabled || true` is always `true`). -/
structure Config where
  maxAge : ℕ := 604800000
  maxSize : ℕ := 104857600
  compressionEnabled : Bool := true
  keyPrefixStr : String := "wcag_"
  deriving Repr, DecidableEq

/-- The `metadata` object stored with an entry. -/
structure EntryMeta where
  originalSize : ℕ
  compressedSize : ℕ
  compressed : Bool
  deriving Repr, DecidableEq

/-- A record of the IndexedDB `assets` store. -/
structure CacheEntry where
  id : String
  key : String
  data : Data
  meta : EntryMeta
  timestamp : ℕ
  accessCount : ℕ
  lastAccessed : ℕ
  size : ℕ
  deriving Repr, DecidableEq

/-- The in-memory `cacheStats` counters (`ℤ`: the JS counters are
plain numbers that the code increments and decrements). -/
structure CacheStats where
  hits : ℕ
  misses : ℕ
  totalSize : ℤ
  itemCount : ℤ
  deriving Repr, DecidableEq

/-- State of an initialised cache manager: the `assets` object store
(keyed by entry id) plus the statistics counters.  (The `metadata`
store only mirrors `cacheStats` via `saveCacheStats`, so it is not
modelled separately.) -/
structure CMState where
  entries : List (String × CacheEntry)
  stats : CacheStats
  deriving Repr, DecidableEq

/-- The state right after `initialize` on a fresh database. -/
def emptyCMState : CMState :=
  { entries := [], stats := { hits := 0, misses := 0, totalSize := 0, itemCount := 0 } }

/-- `IDBObjectStore.put`: replace the record with the same id or
append. -/
def putEntry : List (String × CacheEntry) → String → CacheEntry →
    List (String × CacheEntry)
  | [], id, e => [(id, e)]
  | (k, old) :: rest, id, e =>
      if k = id then (k, e) :: rest else (k, old) :: putEntry rest id e

/-- `IDBObjectStore.delete`. -/
def delEntry : List (String × CacheEntry) → String → List (String × CacheEntry)
  | [], _ => []
  | (k, old) :: rest, id =>
      if k = id then rest else (k, old) :: delEntry rest id

/-- `CacheManager.generateCacheKey`. -/
def generateCacheKey (cfg : Config) (fingerprint key : String) : String :=
  cfg.keyPrefixStr ++ fingerprint ++ "_" ++ key

/-- `CacheManager.isExpired`: `now - entry.timestamp > maxAge`. -/
def isExpired (cfg : Config) (now : ℕ) (e : CacheEntry) : Bool :=
  decide (cfg.maxAge < now - e.timestamp)

/-- `CacheManager.calculateCleanupScore`
(`(accessCount / (age/86400000)) * 1000 - (now-lastAccessed)/1000 - size/1024`).
For `age = 0` the JS division yields `NaN`/`Infinity` while `ℚ` yields
`0`; the score only orders eviction candidates and no claim depends on
that ordering. -/
def calculateCleanupScore (now : ℕ) (e : CacheEntry) : ℚ :=
  let age : ℚ := (now : ℚ) - (e.timestamp : ℚ)
  let lastAccessed : ℚ := (now : ℚ) - (e.lastAccessed : ℚ)
  (e.accessCount : ℚ) / (age / 86400000) * 1000 - lastAccessed / 1000 -
    (e.size : ℚ) / 1024

/-- Insert into a list sorted by descending cleanup score (stable, the
guarantee of `Array.prototype.sort` with comparator
`bScore - aScore`). -/
def insertByScore (now : ℕ) (e : CacheEntry) : List CacheEntry → List CacheEntry
  | [] => [e]
  | b :: bs =>
      if calculateCleanupScore now b < calculateCleanupScore now e
      then e :: b :: bs
      else b :: insertByScore now e bs

/-- The `allEntries.sort` of `cleanup`, by descending score. -/
def sortByScore (now : ℕ) : List CacheEntry → List CacheEntry
  | [] => []
  | e :: es => insertByScore now e (sortByScore now es)

/-- The expired-entry pass of `cleanup`: delete each expired entry and
decrement the counters. -/
def removeExpired (cfg : Config) (now : ℕ) :
    List CacheEntry → CMState → CMState
  | [], st => st
  | e :: es, st =>
      if isExpired cfg now e then
        removeExpired cfg now es
          { entries := delEntry st.entries e.id
            stats := { st.stats with
                       itemCount := st.stats.itemCount - 1
                       totalSize := st.stats.totalSize - (e.size : ℤ) } }
      else removeExpired cfg now es st

/-- The excess-entry eviction loop of `cleanup`: walk the
ascending-score list (`remainingEntries.reverse()`), deleting until both
`currentSize ≤ 0.7 · maxSize` and `currentCount ≤ 800`. -/
def evictLoop (cfg : Config) :
    List CacheEntry → List (String × CacheEntry) → ℤ → ℤ →
      List (String × CacheEntry) × ℤ × ℤ
  | [], es, size, count => (es, size, count)
  | e :: rest, es, size, count =>
      if 10 * size ≤ 7 * (cfg.maxSize : ℤ) ∧ count ≤ 800 then (es, size, count)
      else evictLoop cfg rest (delEntry es e.id) (size - (e.size : ℤ)) (count - 1)

/-- `CacheManager.cleanup`.  (IndexedDB `getAll` enumerates by primary
key; the enumeration order only influences eviction tie-breaking through
the stable sort, which no claim depends on, so the model enumerates the
store in its list order.) -/
def cleanup (cfg : Config) (st : CMState) (now : ℕ) (urgent : Bool) : CMState :=
  let sortedEntries := sortByScore now (st.entries.map Prod.snd)
  let st1 := removeExpired cfg now sortedEntries st
  let remainingEntries := sortedEntries.filter (fun e => !isExpired cfg now e)
  if urgent ∨ 10 * st1.stats.totalSize > 9 * (cfg.maxSize : ℤ) ∨
      1000 < st1.stats.itemCount then
    let out := evictLoop cfg remainingEntries.reverse st1.entries
      st1.stats.totalSize st1.stats.itemCount
    { entries := out.1
      stats := { st1.stats with totalSize := out.2.1, itemCount := out.2.2 } }
  else st1

/-- `CacheManager.storeAsset` for an initialised manager.  The data is
compressed when compression is enabled and the payload exceeds 1KB; a
single item above 10% of `maxSize` triggers an urgent `cleanup` first;
then the entry is `put` and the counters are incremented. -/
def storeAsset (cfg : Config) (compress : Data → Data) (fingerprint : String)
    (st : CMState) (now : ℕ) (key : String) (data : Data) : CMState :=
  let id := generateCacheKey cfg fingerprint key
  let originalSize := data.length
  let processedData :=
    if cfg.compressionEnabled && 1024 < originalSize then compress data else data
  let size := processedData.length
  let st := if 10 * size > cfg.maxSize then cleanup cfg st now true else st
  let cacheEntry : CacheEntry :=
    { id := id
      key := key
      data := processedData
      meta := { originalSize := originalSize
                compressedSize := size
                compressed := cfg.compressionEnabled && size < originalSize }
      timestamp := now
      accessCount := 0
      lastAccessed := now
      size := size }
  { entries := putEntry st.entries id cacheEntry
    stats := { st.stats with
               itemCount := st.stats.itemCount + 1
               totalSize := st.stats.totalSize + (size : ℤ) } }

/-- `CacheManager.removeAsset`. -/
def removeAsset (cfg : Config) (fingerprint : String) (st : CMState)
    (key : String) : CMState :=
  let id := generateCacheKey cfg fingerprint key
  match st.entries.lookup id with
  | some e =>
      { entries := delEntry st.entries id
        stats := { st.stats with
                   itemCount := st.stats.itemCount - 1
                   totalSize := st.stats.totalSize - (e.size : ℤ) } }
  | none => st

/-- The value returned by a successful `retrieveAsset`. -/
structure RetrievedAsset where
  data : Data
  meta : EntryMeta
  timestamp : ℕ
  deriving Repr, DecidableEq

/-- `CacheManager.retrieveAsset`: miss on absence; an expired entry is
removed and reported as a miss; otherwise access tracking is updated and
the payload is decompressed when its metadata says it was compressed. -/
def retrieveAsset (cfg : Config) (decompress : Data → Data)
    (fingerprint : String) (st : CMState) (now : ℕ) (key : String) :
    CMState × Option RetrievedAsset :=
  let id := generateCacheKey cfg fingerprint key
  match st.entries.lookup id with
  | none =>
      ({ st with stats := { st.stats with misses := st.stats.misses + 1 } }, none)
  | some cacheEntry =>
      if isExpired cfg now cacheEntry then
        let st1 := removeAsset cfg fingerprint st key
        ({ st1 with stats := { st1.stats with misses := st1.stats.misses + 1 } }, none)
      else
        let updated := { cacheEntry with
                         accessCount := cacheEntry.accessCount + 1
                         lastAccessed := now }
        let st1 := { st with entries := putEntry st.entries id updated }
        let payload :=
          if cacheEntry.meta.compressed then decompress cacheEntry.data
          else cacheEntry.data
        ({ st1 with stats := { st1.stats with hits := st1.stats.hits + 1 } },
         some { data := payload, meta := cacheEntry.meta
                timestamp := cacheEntry.timestamp })

/-- `CacheManager.hasAsset`: present and not expired. -/
def hasAsset (cfg : Config) (fingerprint : String) (st : CMState)
    (now : ℕ) (key : String) : Bool :=
  let id := generateCacheKey cfg fingerprint key
  match st.entries.lookup id with
  | some cacheEntry => !isExpired cfg now cacheEntry
  | none => false

end CacheManager

end CPG

namespace CPG

/-! ## Thread manager (`ThreadManager` of the core API)

The worker pool is modelled as a labelled transition system: a worker's
pending `handleMessage` listener (which captures the task it runs and
its promise callbacks) is modelled by `busy = some taskId`; settling a
task's promise is recorded in `resolvedIds` / `rejectedWith`.  Worker
message delivery is an external event, hence a `Step` rather than a
function of the submitting code. -/

namespace ThreadManager

/-- A queued task (the payload carries no information relevant to the
claims and is not modelled). -/
structure Task where
  id : ℕ
  taskType : String
  deriving Repr, DecidableEq

/-- A `workerPool` slot: `busy = some tid` when the worker was posted
task `tid` and its message listener is still attached. -/
structure WorkerUnit where
  busy : Option ℕ
  deriving Repr, DecidableEq

/-- Thread manager state. -/
structure TMState where
  initialized : Bool
  taskQueue : List Task
  workerPool : List WorkerUnit
  activeThreads : ℤ
  resolvedIds : List ℕ
  rejectedWith : List (ℕ × String)
  deriving Repr, DecidableEq

/-- Index of the first non-busy worker (`workerPool.find(w => !w.busy)`). -/
def findIdle : List WorkerUnit → Option ℕ
  | [] => none
  | w :: ws =>
      match w.busy with
      | none => some 0
      | some _ => (findIdle ws).map (· + 1)

/-- Mark the worker at index `i` as running task `tid`. -/
def assignWorker (ws : List WorkerUnit) (i : ℕ) (tid : ℕ) : List WorkerUnit :=
  ws.set i { busy := some tid }

/-- `ThreadManager.processQueue`: with a non-empty queue and an idle
worker, shift the oldest task and dispatch it. -/
def processQueue (st : TMState) : TMState :=
  match st.taskQueue with
  | [] => st
  | task :: rest =>
      match findIdle st.workerPool with
      | none => st
      | some i =>
          { st with
            taskQueue := rest
            workerPool := assignWorker st.workerPool i task.id
            activeThreads := st.activeThreads + 1 }

/-- `ThreadManager.executeTask`: reject when not initialised, else queue
the task and run `processQueue`. -/
def executeTask (st : TMState) (task : Task) : Except String TMState :=
  if st.initialized then
    .ok (processQueue { st with taskQueue := st.taskQueue ++ [task] })
  else
    .error "Thread manager not initialized"

/-- The `handleMessage` listener of a dispatched task firing on worker
`i`: settle the promise, free the worker, and run `processQueue`. -/
def deliverMessage (st : TMState) (i : ℕ) (success : Bool) : TMState :=
  match (st.workerPool.getD i { busy := none }).busy with
  | none => st
  | some tid =>
      processQueue
        { st with
          workerPool := st.workerPool.set i { busy := none }
          activeThreads := st.activeThreads - 1
          resolvedIds := if success then st.resolvedIds ++ [tid] else st.resolvedIds
          rejectedWith := if success then st.rejectedWith
                          else st.rejectedWith ++ [(tid, "task failed")] }

/-- `ThreadManager.terminate`: reject every still-queued task with the
terminated error, clear the queue, call `worker.terminate()` on every
worker (dropping its pending listener), and reset. -/
def terminate (st : TMState) : TMState :=
  { initialized := false
    taskQueue := []
    workerPool := []
    activeThreads := 0
    resolvedIds := st.resolvedIds
    rejectedWith := st.rejectedWith ++
      st.taskQueue.map (fun t => (t.id, "Thread manager terminated")) }

/-- The task ids whose awaitable has settled (resolved or rejected). -/
def settled (st : TMState) (tid : ℕ) : Prop :=
  tid ∈ st.resolvedIds ∨ ∃ msg, (tid, msg) ∈ st.rejectedWith

/-- One observable step of the thread manager: a caller submits a task,
a worker delivers a result, or the pool is shut down. -/
inductive Step : TMState → TMState → Prop
  | submit (st : TMState) (task : Task) (st' : TMState)
      (h : executeTask st task = .ok st') : Step st st'
  | message (st : TMState) (i : ℕ) (success : Bool) :
      Step st (deliverMessage st i success)
  | shutdown (st : TMState) : Step st (terminate st)

/-- Reachability along `Step`. -/
def Reach : TMState → TMState → Prop :=
  Relation.ReflTransGen Step

end ThreadManager

end CPG

namespace CPG

/-! ## General helper lemmas -/

/-- Uppercasing a hex digit never produces `#` (so `hexToRgb`s `#` strip
keeps every digit of a normalised hex string). -/
theorem toUpper_ne_hash (c : Char) (h : isHexDigit c = true) : c.toUpper ≠ '#' := by
  intro hc
  unfold Char.toUpper at hc
  simp only [] at hc
  by_cases hcond : c.toNat ≥ 97 ∧ c.toNat ≤ 122
  · rw [if_pos hcond] at hc
    have hv : (c.toNat - 32).isValidChar := Or.inl (by omega)
    have ht : (Char.ofNat (c.toNat - 32)).toNat = c.toNat - 32 := by
      unfold Char.ofNat
      rw [dif_pos hv]
      rfl
    rw [hc] at ht
    have h35 : ('#').toNat = 35 := rfl
    omega
  · rw [if_neg hcond] at hc
    rw [hc] at h
    exact absurd h (by decide)

/-- A successful association-list lookup exhibits a member pair. -/
theorem lookup_mem {l : List (String × String)} {k v : String}
    (h : l.lookup k = some v) : (k, v) ∈ l := by
  induction l with
  | nil => simp [List.lookup] at h
  | cons p rest ih =>
      rw [List.lookup] at h
      by_cases hk : k = p.1
      · obtain ⟨k1, v1⟩ := p
        simp only [] at hk
        subst hk
        simp at h
        subst h
        exact List.mem_cons_self _ _
      · have hbeq : (k == p.1) = false := beq_false_of_ne hk
        rw [hbeq] at h
        exact List.mem_cons_of_mem _ (ih h)

/-- Every hex value of the (deduplicated) name table converts to RGB. -/
theorem hexToRgb_ok_of_table {name hex : String}
    (h : (name, hex) ∈ htmlColors) : (hexToRgb hex).isOk = true := by
  have hall : htmlColors.all (fun kv => (hexToRgb kv.2).isOk) = true := by decide
  rw [List.all_eq_true] at hall
  exact hall _ h

/-- Shape of a six-element list. -/
theorem length_eq_six {l : List Char} (h : l.length = 6) :
    ∃ a b c d e f, l = [a, b, c, d, e, f] := by
  match l, h with
  | [a, b, c, d, e, f], _ => exact ⟨a, b, c, d, e, f, rfl⟩

/-- Shape of a three-element list. -/
theorem length_eq_three' {l : List Char} (h : l.length = 3) :
    ∃ a b c, l = [a, b, c] := by
  match l, h with
  | [a, b, c], _ => exact ⟨a, b, c, rfl⟩

/-- Helper for `hexToRgb_ok_of_normalize`: the match of `normalizeHex`
on an all-hex body of length 3 or 6 produces a string `hexToRgb`
accepts. -/
theorem hexToRgb_ok_aux (body : List Char)
    (hall : ∀ c ∈ body, isHexDigit c = true)
    (hlen : body.length = 3 ∨ body.length = 6) (h : String)
    (hn : (match body.map Char.toUpper with
           | [a, b, c] =>
               (Except.ok (String.mk ['#', a, a, b, b, c, c]) :
                 Except String String)
           | digits => Except.ok (String.mk ('#' :: digits))) = .ok h) :
    (hexToRgb h).isOk = true := by
  rcases hlen with h3 | h6
  · obtain ⟨a, b, c, rfl⟩ := length_eq_three' h3
    have ha : a.toUpper ≠ '#' := toUpper_ne_hash a (hall a (by simp))
    have hb : b.toUpper ≠ '#' := toUpper_ne_hash b (hall b (by simp))
    have hc : c.toUpper ≠ '#' := toUpper_ne_hash c (hall c (by simp))
    simp only [List.map] at hn
    rw [Except.ok.injEq] at hn
    subst hn
    simp [hexToRgb, List.filter, ha, hb, hc, Except.isOk, Except.toBool]
  · obtain ⟨a, b, c, d, e, f, rfl⟩ := length_eq_six h6
    have ha : a.toUpper ≠ '#' := toUpper_ne_hash a (hall a (by simp))
    have hb : b.toUpper ≠ '#' := toUpper_ne_hash b (hall b (by simp))
    have hc : c.toUpper ≠ '#' := toUpper_ne_hash c (hall c (by simp))
    have hd : d.toUpper ≠ '#' := toUpper_ne_hash d (hall d (by simp))
    have he : e.toUpper ≠ '#' := toUpper_ne_hash e (hall e (by simp))
    have hf : f.toUpper ≠ '#' := toUpper_ne_hash f (hall f (by simp))
    simp only [List.map] at hn
    rw [Except.ok.injEq] at hn
    subst hn
    simp [hexToRgb, List.filter, ha, hb, hc, hd, he, hf, Except.isOk, Except.toBool]

/-- The hex string produced by `normalizeHex` converts to RGB. -/
theorem hexToRgb_ok_of_normalize {s h : String}
    (hn : normalizeHex s = .ok h) : (hexToRgb h).isOk = true := by
  rw [normalizeHex] at hn
  by_cases hv : isValidHex s = true
  · rw [if_pos hv] at hn
    rw [isValidHex] at hv
    simp only [Bool.and_eq_true, Bool.or_eq_true, beq_iff_eq] at hv
    by_cases hh : s.data.head? = some '#'
    · simp only [hh, if_pos] at hv hn
      exact hexToRgb_ok_aux _ (List.all_eq_true.mp hv.2) hv.1 h hn
    · simp only [hh, if_neg, if_false] at hv hn
      exact hexToRgb_ok_aux _ (List.all_eq_true.mp hv.2) hv.1 h hn
  · rw [if_neg hv] at hn
    exact absurd hn (by simp)

end CPG

namespace CPG

/-- The canonical hex of any successful parse converts to RGB. -/
theorem hexToRgb_ok_of_parse {c h : String} (hp : parseColor c = .ok h) :
    ∃ rgb, hexToRgb h = .ok rgb := by
  have hok : (hexToRgb h).isOk = true := by
    rw [parseColor] at hp
    by_cases hv : isValidHex c = true
    · rw [if_pos hv] at hp
      exact hexToRgb_ok_of_normalize hp
    · rw [if_neg hv] at hp
      cases hl : htmlToHex c with
      | none => rw [hl] at hp; exact absurd hp (by simp)
      | some hex =>
          rw [hl] at hp
          rw [Except.ok.injEq] at hp
          subst hp
          rw [htmlToHex] at hl
          exact hexToRgb_ok_of_table (lookup_mem hl)
  cases hr : hexToRgb h with
  | ok rgb => exact ⟨rgb, rfl⟩
  | error e => rw [hr] at hok; exact absurd hok (by simp [Except.isOk, Except.toBool])

/-- A valid hex string normalises successfully. -/
theorem normalizeHex_ok_of_valid {s : String} (hv : isValidHex s = true) :
    ∃ h, normalizeHex s = .ok h := by
  rw [normalizeHex, if_pos hv]
  show ∃ h,
    (match (if s.data.head? = some '#' then s.data.tail else s.data).map
        Char.toUpper with
     | [a, b, c] => Except.ok (String.mk ['#', a, a, b, b, c, c])
     | digits => Except.ok (String.mk ('#' :: digits))) = Except.ok h
  rcases (if s.data.head? = some '#' then s.data.tail else s.data).map
      Char.toUpper with _ | ⟨a, _ | ⟨b, _ | ⟨c, _ | ⟨d, t⟩⟩⟩⟩
  · exact ⟨_, rfl⟩
  · exact ⟨_, rfl⟩
  · exact ⟨_, rfl⟩
  · exact ⟨_, rfl⟩
  · exact ⟨_, rfl⟩

/-- `calculateContrast` on two parseable colors computes the rounded
ratio of the luminances of their RGB values. -/
theorem calculateContrast_eq {g : ℚ → ℚ} {c1 c2 h1 h2 : String}
    {r1 r2 : Rgb}
    (hp1 : parseColor c1 = .ok h1) (hp2 : parseColor c2 = .ok h2)
    (hr1 : hexToRgb h1 = .ok r1) (hr2 : hexToRgb h2 = .ok r2) :
    calculateContrast g c1 c2 =
      .ok (round2 ((max (rgbToLuminance g r1) (rgbToLuminance g r2) + 5 / 100) /
        (min (rgbToLuminance g r1) (rgbToLuminance g r2) + 5 / 100))) := by
  rw [calculateContrast]
  simp [hp1, hp2, hexToLuminance, hr1, hr2, Except.bind, bind, pure, Except.pure]

/-- `checkCompliance` on two parseable colors: the full result record. -/
theorem checkCompliance_eq {g : ℚ → ℚ} {c1 c2 h1 h2 : String}
    {r1 r2 : Rgb} {level : WcagLevel} {textSize : TextSize}
    (hp1 : parseColor c1 = .ok h1) (hp2 : parseColor c2 = .ok h2)
    (hr1 : hexToRgb h1 = .ok r1) (hr2 : hexToRgb h2 = .ok r2) :
    checkCompliance g c1 c2 level textSize =
      .ok { contrastValue := round2
              ((max (rgbToLuminance g r1) (rgbToLuminance g r2) + 5 / 100) /
               (min (rgbToLuminance g r1) (rgbToLuminance g r2) + 5 / 100))
            requiredValue := thresholds level textSize
            compliant := decide (thresholds level textSize ≤ round2
              ((max (rgbToLuminance g r1) (rgbToLuminance g r2) + 5 / 100) /
               (min (rgbToLuminance g r1) (rgbToLuminance g r2) + 5 / 100)))
            level := level
            textSize := textSize
            color1 := h1
            color2 := h2 } := by
  rw [checkCompliance]
  rw [calculateContrast_eq hp1 hp2 hr1 hr2]
  simp [hp1, hp2, Except.bind, bind, pure, Except.pure]

/-- Values of the deduplication fold are distinct and avoid the seen
set. -/
theorem dedupByHex_values_nodup (l : List (String × String)) :
    ∀ seen, ((dedupByHex l seen).map Prod.snd).Nodup ∧
      ∀ v ∈ (dedupByHex l seen).map Prod.snd, v ∉ seen := by
  induction l with
  | nil => intro seen; simp [dedupByHex]
  | cons p rest ih =>
      intro seen
      obtain ⟨name, hex⟩ := p
      simp only [dedupByHex]
      by_cases hs : seen.contains (String.mk (hex.data.map Char.toUpper))
      · rw [if_pos hs]
        exact ih seen
      · rw [if_neg hs]
        obtain ⟨hnd, hnotin⟩ := ih (String.mk (hex.data.map Char.toUpper) :: seen)
        refine ⟨?_, ?_⟩
        · simp only [List.map_cons, List.nodup_cons]
          refine ⟨?_, hnd⟩
          intro hmem
          exact (hnotin _ hmem) (List.mem_cons_self _ _)
        · intro v hv
          simp only [List.map_cons, List.mem_cons] at hv
          rcases hv with rfl | hv
          · intro hcon
            exact absurd hcon (by simpa using hs)
          · intro hcon
            exact (hnotin v hv) (List.mem_cons_of_mem _ hcon)

/-! ## Claim C4 (corrected) -/

/-- C4 counterexample: `cyan` is a name of the standard HTML table
(hex `#00FFFF`), yet `parseColor "cyan"` fails, because the
deduplication of `initializeHTMLColors` dropped it in favour of the
earlier name `aqua` with the same hex value. -/
theorem C4_counterexample :
    htmlColorList.lookup "cyan" = some "#00FFFF" ∧
      parseColor "cyan" = .error "Unable to parse color: cyan" := by
  constructor
  · decide
  · decide

/-- C4 (amended): `parse` fails exactly when the input is neither a
3/6-digit hex pattern nor a name retained in the deduplicated table,
and the retained table maps names to pairwise-distinct canonical hex
values; however alias names whose hex collides with an earlier name
(such as `cyan`, `magenta`, `grey`) are dropped from the table and do
not parse. -/
theorem C4_parse_fails_iff :
    (∀ s, (parseColor s).isOk = false ↔
      (isValidHex s = false ∧ htmlToHex s = none)) ∧
    ((htmlColors.map Prod.snd).Nodup) := by
  constructor
  · intro s
    constructor
    · intro hfail
      rw [parseColor] at hfail
      by_cases hv : isValidHex s = true
      · rw [if_pos hv] at hfail
        obtain ⟨h, hh⟩ := normalizeHex_ok_of_valid hv
        rw [hh] at hfail
        exact absurd hfail (by simp [Except.isOk, Except.toBool])
      · refine ⟨Bool.eq_false_iff.mpr hv, ?_⟩
        rw [if_neg hv] at hfail
        cases hl : htmlToHex s with
        | none => rfl
        | some hex =>
            rw [hl] at hfail
            exact absurd hfail (by simp [Except.isOk, Except.toBool])
    · rintro ⟨hv, hl⟩
      rw [parseColor, if_neg (by simp [hv]), hl]
      rfl
  · exact (dedupByHex_values_nodup htmlColorList []).1

/-! ## Claim C2 (confirmed) -/

/-- Modelled from the spec (§4.1): relative luminance as the spec words
it — convert each channel to `[0,1]`, apply the piecewise sRGB
transform (linear below 0.03928, else the 2.4-power of
`(c + 0.055) / 1.055`, here `g` of the shifted argument), then weight
the channels 0.2126 / 0.7152 / 0.0722. -/
def specLuminance (g : ℚ → ℚ) (rgb : Rgb) : ℚ :=
  let toLinear : ℚ → ℚ := fun c =>
    if c ≤ 3928 / 100000 then c / (1292 / 100) else g ((c + 55 / 1000) / (1055 / 1000))
  2126 / 10000 * toLinear ((rgb.r : ℚ) / 255) +
    7152 / 10000 * toLinear ((rgb.g : ℚ) / 255) +
    722 / 10000 * toLinear ((rgb.b : ℚ) / 255)

/-- Modelled from the spec (§4.1): the contrast-ratio formula
`(max(L1,L2) + 0.05) / (min(L1,L2) + 0.05)`, rounded to 2 decimal
places. -/
def specContrastRatio (lum1 lum2 : ℚ) : ℚ :=
  round2 ((max lum1 lum2 + 5 / 100) / (min lum1 lum2 + 5 / 100))

/-- The code's luminance agrees with the spec's formula. -/
theorem rgbToLuminance_eq_spec (g : ℚ → ℚ) (rgb : Rgb) :
    rgbToLuminance g rgb = specLuminance g rgb := by
  rw [rgbToLuminance, specLuminance, gammaCorrect, gammaCorrect, gammaCorrect]

/-- C2: for every pair of parseable colors the computed contrast ratio
is exactly the spec formula — `(max(L1,L2)+0.05)/(min(L1,L2)+0.05)`
rounded to two decimals, with luminances given by the piecewise sRGB
transform weighted 0.2126/0.7152/0.0722 over the parsed RGB channels. -/
theorem C2_contrast_formula (g : ℚ → ℚ) (c1 c2 h1 h2 : String)
    (hp1 : parseColor c1 = .ok h1) (hp2 : parseColor c2 = .ok h2) :
    ∃ rgb1 rgb2, hexToRgb h1 = .ok rgb1 ∧ hexToRgb h2 = .ok rgb2 ∧
      calculateContrast g c1 c2 =
        .ok (specContrastRatio (specLuminance g rgb1) (specLuminance g rgb2)) := by
  obtain ⟨rgb1, hr1⟩ := hexToRgb_ok_of_parse hp1
  obtain ⟨rgb2, hr2⟩ := hexToRgb_ok_of_parse hp2
  refine ⟨rgb1, rgb2, hr1, hr2, ?_⟩
  rw [calculateContrast_eq hp1 hp2 hr1 hr2, specContrastRatio,
    rgbToLuminance_eq_spec, rgbToLuminance_eq_spec]

/-- C2 witness at `white` / `black`. -/
theorem C2_witness :
    parseColor "white" = .ok "#FFFFFF" ∧ parseColor "black" = .ok "#000000" ∧
    ∃ rgb1 rgb2, hexToRgb "#FFFFFF" = .ok rgb1 ∧ hexToRgb "#000000" = .ok rgb2 ∧
      calculateContrast (fun _ => 1) "white" "black" =
        .ok (specContrastRatio (specLuminance (fun _ => 1) rgb1)
              (specLuminance (fun _ => 1) rgb2)) :=
  ⟨by decide, by decide,
    C2_contrast_formula (fun _ => 1) "white" "black" "#FFFFFF" "#000000"
      (by decide) (by decide)⟩

end CPG

namespace CPG

/-! ## Claim C1 (confirmed) -/

namespace ValidationEngine

/-- Compliance of the adjacent pair at index `i`, as the wcag rule loop
computes it (`false` also when the contrast computation throws). -/
def wcagPairCompliant (g : ℚ → ℚ) (colors : List String)
    (wcagLevel : WcagLevel) (textSize : TextSize) (i : ℕ) : Bool :=
  match checkCompliance g (colors.getD i "")
      (colors.getD ((i + 1) % colors.length) "") wcagLevel textSize with
  | .ok comp => comp.compliant
  | .error _ => false

/-- The `valid` component of the wcag fold is the conjunction of the
pairwise compliances. -/
theorem wcagFold_valid (g : ℚ → ℚ) (colors : List String)
    (wcagLevel : WcagLevel) (textSize : TextSize) :
    ∀ (l : List ℕ) (acc : WcagAcc),
      (l.foldl (wcagStep g colors wcagLevel textSize) acc).valid =
        (acc.valid && l.all (wcagPairCompliant g colors wcagLevel textSize)) := by
  intro l
  induction l with
  | nil => intro acc; simp
  | cons i rest ih =>
      intro acc
      rw [List.foldl_cons, ih, List.all_cons]
      have hstep : (wcagStep g colors wcagLevel textSize acc i).valid =
          (acc.valid && wcagPairCompliant g colors wcagLevel textSize i) := by
        rw [wcagStep, wcagPairCompliant]
        cases checkCompliance g (colors.getD i "")
            (colors.getD ((i + 1) % colors.length) "") wcagLevel textSize with
        | ok comp => rfl
        | error e => simp
      rw [hstep, Bool.and_assoc]

/-- The `valid` flag of the wcag rule on a swatch of at least two
colors. -/
theorem wcag_valid_eq (g : ℚ → ℚ) (colors : List String)
    (wcagLevel : WcagLevel) (textSize : TextSize) (h2 : 2 ≤ colors.length) :
    (validateWCAGCompliance g colors wcagLevel textSize).valid =
      (List.range colors.length).all
        (wcagPairCompliant g colors wcagLevel textSize) := by
  rw [validateWCAGCompliance, if_neg (by omega)]
  simp only []
  rw [wcagFold_valid]
  simp

end ValidationEngine

/-- An element fetched with `getD` at an index below the length is a
member. -/
theorem getD_mem_of_lt {l : List String} {i : ℕ} (h : i < l.length) :
    l.getD i "" ∈ l := by
  rw [List.getD_eq_getElem l "" h]
  exact List.getElem_mem h

/-- Pointwise reading of `wcagPairCompliant` on parseable colors: the
pair is non-compliant exactly when its computed ratio is below the
threshold. -/
theorem wcagPairCompliant_false_iff (g : ℚ → ℚ) (colors : List String)
    (wcagLevel : WcagLevel) (textSize : TextSize) (i : ℕ)
    (hp : ∀ c ∈ colors, ∃ h, parseColor c = .ok h)
    (hi : i < colors.length) :
    ValidationEngine.wcagPairCompliant g colors wcagLevel textSize i = false ↔
      ∃ q, calculateContrast g (colors.getD i "")
          (colors.getD ((i + 1) % colors.length) "") = .ok q ∧
        q < thresholds wcagLevel textSize := by
  obtain ⟨h1, hp1⟩ := hp _ (getD_mem_of_lt hi)
  obtain ⟨h2, hp2⟩ := hp _ (getD_mem_of_lt (Nat.mod_lt _ (by omega) :
    (i + 1) % colors.length < colors.length))
  obtain ⟨r1, hr1⟩ := hexToRgb_ok_of_parse hp1
  obtain ⟨r2, hr2⟩ := hexToRgb_ok_of_parse hp2
  rw [ValidationEngine.wcagPairCompliant, checkCompliance_eq hp1 hp2 hr1 hr2]
  rw [calculateContrast_eq hp1 hp2 hr1 hr2]
  simp only [decide_eq_false_iff_not, not_le, Except.ok.injEq]
  constructor
  · intro hlt
    exact ⟨_, rfl, hlt⟩
  · rintro ⟨q, rfl, hlt⟩
    exact hlt

/-- C1: on a swatch of at least two parseable colors, the
`wcag_compliance` rule reports non-compliance exactly when some
cyclic-adjacent pair `(i, (i+1) mod n)` has its computed contrast ratio
below the threshold for the level and text size — the thresholds being
4.5 (AA/normal), 3.0 (AA/large), 7.0 (AAA/normal), 4.5 (AAA/large). -/
theorem C1_wcag_compliance_iff (g : ℚ → ℚ) (colors : List String)
    (wcagLevel : WcagLevel) (textSize : TextSize)
    (hp : ∀ c ∈ colors, ∃ h, parseColor c = .ok h)
    (hlen : 2 ≤ colors.length) :
    (thresholds .AA .normal = 45 / 10 ∧ thresholds .AA .large = 3 ∧
     thresholds .AAA .normal = 7 ∧ thresholds .AAA .large = 45 / 10) ∧
    ((ValidationEngine.validateWCAGCompliance g colors wcagLevel textSize).valid
        = false ↔
      ∃ i < colors.length, ∃ q,
        calculateContrast g (colors.getD i "")
            (colors.getD ((i + 1) % colors.length) "") = .ok q ∧
          q < thresholds wcagLevel textSize) := by
  refine ⟨⟨rfl, rfl, rfl, rfl⟩, ?_⟩
  rw [ValidationEngine.wcag_valid_eq g colors wcagLevel textSize hlen]
  constructor
  · intro hfalse
    have : ¬ ((List.range colors.length).all
        (ValidationEngine.wcagPairCompliant g colors wcagLevel textSize) = true) := by
      rw [hfalse]; simp
    rw [List.all_eq_true] at this
    push_neg at this
    obtain ⟨i, hi, hpc⟩ := this
    rw [List.mem_range] at hi
    refine ⟨i, hi, ?_⟩
    exact (wcagPairCompliant_false_iff g colors wcagLevel textSize i hp hi).mp
      (Bool.eq_false_iff.mpr hpc)
  · rintro ⟨i, hi, hq⟩
    have hfalse : ValidationEngine.wcagPairCompliant g colors wcagLevel textSize i
        = false :=
      (wcagPairCompliant_false_iff g colors wcagLevel textSize i hp hi).mpr hq
    rcases hall : (List.range colors.length).all
        (ValidationEngine.wcagPairCompliant g colors wcagLevel textSize) with _ | _
    · rfl
    · rw [List.all_eq_true] at hall
      have := hall i (List.mem_range.mpr hi)
      rw [hfalse] at this
      exact absurd this (by simp)

end CPG

namespace CPG

/-- C1 witness at the swatch `[#000000, #FFFFFF]`, level AA, normal
text. -/
theorem C1_witness :
    (thresholds .AA .normal = 45 / 10 ∧ thresholds .AA .large = 3 ∧
     thresholds .AAA .normal = 7 ∧ thresholds .AAA .large = 45 / 10) ∧
    ((ValidationEngine.validateWCAGCompliance (fun _ => 1)
        ["#000000", "#FFFFFF"] .AA .normal).valid = false ↔
      ∃ i < (["#000000", "#FFFFFF"] : List String).length, ∃ q,
        calculateContrast (fun _ => 1)
            ((["#000000", "#FFFFFF"] : List String).getD i "")
            ((["#000000", "#FFFFFF"] : List String).getD
              ((i + 1) % (["#000000", "#FFFFFF"] : List String).length) "") =
          .ok q ∧
          q < thresholds .AA .normal) :=
  C1_wcag_compliance_iff (fun _ => 1) ["#000000", "#FFFFFF"] .AA .normal
    (by
      intro c hc
      simp only [List.mem_cons, List.not_mem_nil, or_false] at hc
      rcases hc with rfl | rfl
      · exact ⟨"#000000", by decide⟩
      · exact ⟨"#FFFFFF", by decide⟩)
    (by norm_num)

end CPG

namespace CPG

/-! ## Claim C8 (corrected) -/

namespace SwatchGenerator

/-- The combination recursion yields nothing when fewer colors remain
than are still needed. -/
theorem gcAux_eq_nil (count : ℕ) :
    ∀ (rest current : List String),
      current.length + rest.length < count → gcAux count current rest = [] := by
  intro rest
  induction rest with
  | nil =>
      intro current hlt
      rw [gcAux, if_neg (by omega)]
  | cons c rs ih =>
      intro current hlt
      have hlc : (c :: rs).length = rs.length + 1 := rfl
      have hla : (current ++ [c]).length = current.length + 1 := by
        rw [List.length_append]
        rfl
      rw [gcAux, if_neg (by omega)]
      show gcAux count (current ++ [c]) rs ++ gcAux count current rs = []
      rw [ih (current ++ [c]) (by omega), ih current (by omega)]
      rfl

/-- A palette shorter than the requested count yields no
combinations. -/
theorem generateCombinations_eq_nil {colors : List String} {count : ℕ}
    (h : colors.length < count) : generateCombinations colors count = [] := by
  rw [generateCombinations]
  have h0 : ([] : List String).length = 0 := rfl
  exact gcAux_eq_nil count colors [] (by omega)

/-- The batch slicing of the empty combination list. -/
theorem chunks100_nil : chunks100 [] = [] := by
  simp [chunks100]

end SwatchGenerator

/-- C8 counterexample: the claim admits arity 6 (range `[2,7]`), but a
search with arity 6 over a one-color palette throws instead of
returning an empty result. -/
theorem C8_counterexample :
    SwatchGenerator.generatePermutations (fun _ => 1) ["#000000"] 6 .AA =
      .error "Color count must be between 2 and 5" := by
  rw [SwatchGenerator.generatePermutations, if_pos (by norm_num)]

/-- C8 (amended): the generator accepts arities in `[2,5]` only (6 and 7
throw); within that range a palette with fewer colors than the arity
yields a successful empty result — zero combinations, zero valid
swatches, all stats zero — and no error. -/
theorem C8_empty_palette (g : ℚ → ℚ) (palette : List String) (k : ℕ)
    (wcagLevel : WcagLevel) (h2 : 2 ≤ k) (h5 : k ≤ 5)
    (hlt : palette.length < k) :
    SwatchGenerator.generatePermutations g palette k wcagLevel =
      .ok { colorCount := k, wcagLevel := wcagLevel, totalCombinations := 0
            validSwatches := []
            stats := { generated := 0, validated := 0, compliant := 0
                       duplicatesSkipped := 0 } } := by
  rw [SwatchGenerator.generatePermutations, if_neg (by omega)]
  simp only [SwatchGenerator.generateCombinations_eq_nil hlt,
    SwatchGenerator.chunks100_nil]
  rfl

/-- C8 witness: arity 3 over a one-color palette. -/
theorem C8_witness :
    2 ≤ 3 ∧ 3 ≤ 5 ∧ (["#000000"] : List String).length < 3 ∧
    SwatchGenerator.generatePermutations (fun _ => 1) ["#000000"] 3 .AA =
      .ok { colorCount := 3, wcagLevel := .AA, totalCombinations := 0
            validSwatches := []
            stats := { generated := 0, validated := 0, compliant := 0
                       duplicatesSkipped := 0 } } :=
  ⟨by norm_num, by norm_num, by simp,
    C8_empty_palette (fun _ => 1) ["#000000"] 3 .AA (by norm_num) (by norm_num)
      (by simp)⟩

/-! ## Claim C9 (corrected) -/

/-- A fold in the `Except` monad whose every step succeeds succeeds. -/
theorem foldlM_ok {α β : Type} (f : β → α → Except String β) (l : List α)
    (h : ∀ a ∈ l, ∀ b, ∃ r, f b a = .ok r) :
    ∀ acc, ∃ r, l.foldlM f acc = .ok r := by
  induction l with
  | nil => intro acc; exact ⟨acc, rfl⟩
  | cons a rest ih =>
      intro acc
      obtain ⟨r1, hr1⟩ := h a (List.mem_cons_self _ _) acc
      obtain ⟨r, hr⟩ := ih (fun x hx => h x (List.mem_cons_of_mem _ hx)) r1
      refine ⟨r, ?_⟩
      rw [List.foldlM_cons, hr1]
      exact hr

/-- `mapM parseColor` succeeds on parseable colors. -/
theorem mapM_parseColor_ok (colors : List String)
    (hp : ∀ c ∈ colors, ∃ h, parseColor c = .ok h) :
    ∃ l, colors.mapM parseColor = .ok l := by
  induction colors with
  | nil => exact ⟨[], rfl⟩
  | cons c rest ih =>
      obtain ⟨h, hc⟩ := hp c (List.mem_cons_self _ _)
      obtain ⟨l, hl⟩ := ih (fun x hx => hp x (List.mem_cons_of_mem _ hx))
      refine ⟨h :: l, ?_⟩
      rw [List.mapM_cons, hc, hl]
      rfl

/-- `checkCompliance` succeeds on parseable colors. -/
theorem checkCompliance_ok {g : ℚ → ℚ} {c1 c2 : String}
    {level : WcagLevel} {textSize : TextSize}
    (hp1 : ∃ h, parseColor c1 = .ok h) (hp2 : ∃ h, parseColor c2 = .ok h) :
    ∃ r, checkCompliance g c1 c2 level textSize = .ok r := by
  obtain ⟨h1, hp1⟩ := hp1
  obtain ⟨h2, hp2⟩ := hp2
  obtain ⟨r1, hr1⟩ := hexToRgb_ok_of_parse hp1
  obtain ⟨r2, hr2⟩ := hexToRgb_ok_of_parse hp2
  exact ⟨_, checkCompliance_eq hp1 hp2 hr1 hr2⟩

/-- The adjacent-pair step of the generator succeeds on parseable
colors. -/
theorem vsStep_ok (g : ℚ → ℚ) (colors : List String)
    (wcagLevel : WcagLevel)
    (hp : ∀ c ∈ colors, ∃ h, parseColor c = .ok h) :
    ∀ i ∈ List.range colors.length, ∀ acc,
      ∃ r, SwatchGenerator.vsStep g colors wcagLevel acc i = .ok r := by
  intro i hi acc
  rw [List.mem_range] at hi
  obtain ⟨cr, hcr⟩ := @checkCompliance_ok g _ _ wcagLevel .normal
    (hp _ (getD_mem_of_lt hi))
    (hp _ (getD_mem_of_lt (Nat.mod_lt _ (by omega) :
      (i + 1) % colors.length < colors.length)))
  simp only [SwatchGenerator.vsStep, hcr, Except.bind, bind]
  exact ⟨_, rfl⟩

/-- The generator's `validateSwatch` succeeds on parseable colors and
returns the parsed colors as the swatch's color list. -/
theorem validateSwatch_ok (g : ℚ → ℚ) (colors : List String)
    (wcagLevel : WcagLevel)
    (hp : ∀ c ∈ colors, ∃ h, parseColor c = .ok h) :
    ∃ sw, SwatchGenerator.validateSwatch g colors wcagLevel = .ok sw ∧
      colors.mapM parseColor = .ok sw.colors := by
  obtain ⟨parsed, hparsed⟩ := mapM_parseColor_ok colors hp
  obtain ⟨final, hfinal⟩ := foldlM_ok
    (SwatchGenerator.vsStep g colors wcagLevel) (List.range colors.length)
    (vsStep_ok g colors wcagLevel hp) SwatchGenerator.vsInit
  refine ⟨{ colors := parsed
            adjacentContrasts := final.adjacentContrasts
            overallRating := final.overallRating
            compliant := final.compliant
            wcagLevel := wcagLevel }, ?_, hparsed⟩
  rw [SwatchGenerator.validateSwatch, hparsed]
  simp only [Except.bind, bind]
  rw [hfinal]
  rfl

/-- C9 counterexample: two inputs differing only in case pass the raw
duplicate check of `generateSpecificSwatch`, and the created swatch
holds the same canonical color twice. -/
theorem C9_counterexample :
    ∃ sw, SwatchGenerator.generateSpecificSwatch (fun _ => 1)
        ["#FFFFFF", "#ffffff"] .AA = .ok sw ∧
      sw.colors = ["#FFFFFF", "#FFFFFF"] ∧ ¬ sw.colors.Nodup := by
  obtain ⟨sw, hok, hcolors⟩ := validateSwatch_ok (fun _ => 1)
    ["#FFFFFF", "#ffffff"] .AA
    (by
      intro c hc
      simp only [List.mem_cons, List.not_mem_nil, or_false] at hc
      rcases hc with rfl | rfl
      · exact ⟨"#FFFFFF", by decide⟩
      · exact ⟨"#FFFFFF", by decide⟩)
  have hmap : (["#FFFFFF", "#ffffff"] : List String).mapM parseColor =
      .ok ["#FFFFFF", "#FFFFFF"] := by decide
  rw [hmap] at hcolors
  rw [Except.ok.injEq] at hcolors
  refine ⟨sw, ?_, hcolors.symm, by rw [← hcolors]; decide⟩
  rw [SwatchGenerator.generateSpecificSwatch, if_neg (by norm_num),
    if_neg (by decide)]
  exact hok

/-- C9 (amended): a successfully created swatch has pairwise-distinct
raw input strings (that is the only duplicate check performed), and its
colors are the parses of those raw strings; inputs that differ textually
but canonicalise to the same hex are not rejected, so the
canonical-uniqueness invariant of the claim does not hold. -/
theorem C9_no_raw_duplicates (g : ℚ → ℚ) (colors : List String)
    (wcagLevel : WcagLevel) (sw : SwatchGenerator.Swatch)
    (hok : SwatchGenerator.generateSpecificSwatch g colors wcagLevel = .ok sw) :
    colors.Nodup ∧ colors.mapM parseColor = .ok sw.colors := by
  rw [SwatchGenerator.generateSpecificSwatch] at hok
  by_cases hlen : colors.length < 2 ∨ 5 < colors.length
  · rw [if_pos hlen] at hok
    exact absurd hok (by simp)
  · rw [if_neg hlen] at hok
    by_cases hdup : colors.dedup.length ≠ colors.length
    · rw [if_pos hdup] at hok
      exact absurd hok (by simp)
    · rw [if_neg hdup] at hok
      push_neg at hdup
      have hnodup : colors.Nodup := by
        have hsub : colors.dedup.Sublist colors := List.dedup_sublist colors
        have heq : colors.dedup = colors := hsub.eq_of_length hdup
        rw [← heq]
        exact List.nodup_dedup colors
      refine ⟨hnodup, ?_⟩
      rw [SwatchGenerator.validateSwatch] at hok
      cases hm : colors.mapM parseColor with
      | error e =>
          rw [hm] at hok
          exact absurd hok (by simp [Except.bind, bind])
      | ok parsed =>
          rw [hm] at hok
          simp only [Except.bind, bind] at hok
          cases hf : (List.range colors.length).foldlM
              (SwatchGenerator.vsStep g colors wcagLevel)
              SwatchGenerator.vsInit with
          | error e => rw [hf] at hok; exact absurd hok (by simp)
          | ok final =>
              rw [hf] at hok
              simp only [pure, Except.pure, Except.ok.injEq] at hok
              rw [← hok]

/-- C9 witness for the amended invariant, at a genuinely duplicate-free
swatch. -/
theorem C9_witness :
    ∃ sw, SwatchGenerator.generateSpecificSwatch (fun _ => 1)
        ["#000000", "#FFFFFF"] .AA = .ok sw ∧
      (["#000000", "#FFFFFF"] : List String).Nodup ∧
      (["#000000", "#FFFFFF"] : List String).mapM parseColor = .ok sw.colors := by
  obtain ⟨sw, hok, _⟩ := validateSwatch_ok (fun _ => 1)
    ["#000000", "#FFFFFF"] .AA
    (by
      intro c hc
      simp only [List.mem_cons, List.not_mem_nil, or_false] at hc
      rcases hc with rfl | rfl
      · exact ⟨"#000000", by decide⟩
      · exact ⟨"#FFFFFF", by decide⟩)
  have hok2 : SwatchGenerator.generateSpecificSwatch (fun _ => 1)
      ["#000000", "#FFFFFF"] .AA = .ok sw := by
    rw [SwatchGenerator.generateSpecificSwatch, if_neg (by norm_num),
      if_neg (by decide)]
    exact hok
  obtain ⟨hnodup, hcolors⟩ := C9_no_raw_duplicates (fun _ => 1)
    ["#000000", "#FFFFFF"] .AA sw hok2
  exact ⟨sw, hok2, hnodup, hcolors⟩

end CPG

namespace CPG

/-! ## Claim C5 (corrected) -/

namespace ValidationEngine

/-- The running-minimum update of the wcag rule's `lowestContrast`
tracking for pair index `i`. -/
def lowestStep (g : ℚ → ℚ) (colors : List String) (wcagLevel : WcagLevel)
    (textSize : TextSize) (lc : WithTop ℚ) (i : ℕ) : WithTop ℚ :=
  match checkCompliance g (colors.getD i "")
      (colors.getD ((i + 1) % colors.length) "") wcagLevel textSize with
  | .ok comp =>
      if (comp.contrastValue : WithTop ℚ) < lc then (comp.contrastValue : WithTop ℚ)
      else lc
  | .error _ => lc

/-- The lowest cyclic-adjacent contrast as the wcag rule computes it
(starting from `Infinity`, i.e. `⊤`). -/
def adjacentLowest (g : ℚ → ℚ) (colors : List String)
    (wcagLevel : WcagLevel) (textSize : TextSize) : WithTop ℚ :=
  (List.range colors.length).foldl (lowestStep g colors wcagLevel textSize) ⊤

/-- The `lowestContrast` component of the wcag fold is the
running-minimum fold. -/
theorem wcagFold_lowest (g : ℚ → ℚ) (colors : List String)
    (wcagLevel : WcagLevel) (textSize : TextSize) :
    ∀ (l : List ℕ) (acc : WcagAcc),
      (l.foldl (wcagStep g colors wcagLevel textSize) acc).lowestContrast =
        l.foldl (lowestStep g colors wcagLevel textSize) acc.lowestContrast := by
  intro l
  induction l with
  | nil => intro acc; rfl
  | cons i rest ih =>
      intro acc
      rw [List.foldl_cons, List.foldl_cons, ih]
      congr 1
      rw [wcagStep, lowestStep]
      cases checkCompliance g (colors.getD i "")
          (colors.getD ((i + 1) % colors.length) "") wcagLevel textSize with
      | ok comp => rfl
      | error e => rfl

/-- The wcag rule on a swatch of at least two colors reports
`details.lowestContrast = adjacentLowest`. -/
theorem wcag_detailsLowest (g : ℚ → ℚ) (colors : List String)
    (wcagLevel : WcagLevel) (textSize : TextSize) (h2 : 2 ≤ colors.length) :
    (validateWCAGCompliance g colors wcagLevel textSize).detailsLowest =
      some (adjacentLowest g colors wcagLevel textSize) := by
  rw [validateWCAGCompliance, if_neg (by omega), adjacentLowest]
  simp only []
  rw [wcagFold_lowest]

/-- The results entry a rule id contributes (when it runs without
throwing). -/
def ruleEntryOf (g : ℚ → ℚ) (colors : List String) (opts : VOptions)
    (ruleId : String) : Option RuleEntry :=
  match runRule g ruleId colors opts with
  | some (.ok outcome) => some { rule := ruleId, outcome := outcome }
  | _ => none

/-- The verdict a rule id contributes to the report's `valid` flag. -/
def ruleValidOf (g : ℚ → ℚ) (colors : List String) (opts : VOptions)
    (ruleId : String) : Bool :=
  match runRule g ruleId colors opts with
  | none => true
  | some (.ok outcome) => outcome.valid
  | some (.error _) => false

/-- The `results` list of the rules fold. -/
theorem ruleFold_results (g : ℚ → ℚ) (colors : List String) (opts : VOptions) :
    ∀ (rules : List String) (r0 : Report),
      (rules.foldl (ruleStep g colors opts) r0).results =
        r0.results ++ rules.filterMap (ruleEntryOf g colors opts) := by
  intro rules
  induction rules with
  | nil => intro r0; simp
  | cons id rest ih =>
      intro r0
      rw [List.foldl_cons, ih, List.filterMap_cons]
      cases hr : runRule g id colors opts with
      | none =>
          simp only [ruleStep, hr, ruleEntryOf]
      | some exc =>
          cases exc with
          | ok outcome =>
              simp only [ruleStep, hr, ruleEntryOf]
              rw [List.append_assoc]
              rfl
          | error e =>
              simp only [ruleStep, hr, ruleEntryOf]

/-- The `valid` flag of the rules fold. -/
theorem ruleFold_valid (g : ℚ → ℚ) (colors : List String) (opts : VOptions) :
    ∀ (rules : List String) (r0 : Report),
      (rules.foldl (ruleStep g colors opts) r0).valid =
        (r0.valid && rules.all (ruleValidOf g colors opts)) := by
  intro rules
  induction rules with
  | nil => intro r0; simp
  | cons id rest ih =>
      intro r0
      rw [List.foldl_cons, ih, List.all_cons]
      have hstep : (ruleStep g colors opts r0 id).valid =
          (r0.valid && ruleValidOf g colors opts id) := by
        rw [ruleStep, ruleValidOf]
        cases hr : runRule g id colors opts with
        | none => simp
        | some exc =>
            cases exc with
            | ok outcome => rfl
            | error e => simp
      rw [hstep, Bool.and_assoc]

/-- The first `wcag_compliance` entry of the fold's results: present
with the wcag rule's outcome exactly when the id was requested. -/
theorem find_wcag (g : ℚ → ℚ) (colors : List String) (opts : VOptions) :
    ∀ (rules : List String),
      ((rules.filterMap (ruleEntryOf g colors opts)).find?
          (fun r => r.rule = "wcag_compliance")) =
        if "wcag_compliance" ∈ rules then
          some { rule := "wcag_compliance"
                 outcome := validateWCAGCompliance g colors opts.wcagLevel
                   opts.textSize }
        else none := by
  intro rules
  induction rules with
  | nil => simp
  | cons id rest ih =>
      rw [List.filterMap_cons]
      by_cases hid : id = "wcag_compliance"
      · subst hid
        have hentry : ruleEntryOf g colors opts "wcag_compliance" =
            some { rule := "wcag_compliance"
                   outcome := validateWCAGCompliance g colors opts.wcagLevel
                     opts.textSize } := rfl
        rw [hentry]
        rw [List.find?_cons_of_pos _ (by simp)]
        simp
      · cases hr : ruleEntryOf g colors opts id with
        | none =>
            rw [ih]
            have hmem : ("wcag_compliance" ∈ id :: rest) ↔
                ("wcag_compliance" ∈ rest) := by
              constructor
              · intro h
                rcases List.mem_cons.mp h with heq | hm
                · exact absurd heq.symm hid
                · exact hm
              · exact List.mem_cons_of_mem _
            by_cases hm : "wcag_compliance" ∈ rest
            · rw [if_pos hm, if_pos (hmem.mpr hm)]
            · rw [if_neg hm, if_neg (fun h => hm (hmem.mp h))]
        | some entry =>
            have hrule : entry.rule = id := by
              rw [ruleEntryOf] at hr
              cases hrr : runRule g id colors opts with
              | none => rw [hrr] at hr; exact absurd hr (by simp)
              | some exc =>
                  cases exc with
                  | ok outcome =>
                      rw [hrr] at hr
                      simp only [Option.some.injEq] at hr
                      rw [← hr]
                  | error e => rw [hrr] at hr; exact absurd hr (by simp)
            rw [List.find?_cons_of_neg _ (by simp [hrule, hid])]
            rw [ih]
            have hmem : ("wcag_compliance" ∈ id :: rest) ↔
                ("wcag_compliance" ∈ rest) := by
              constructor
              · intro h
                rcases List.mem_cons.mp h with heq | hm
                · exact absurd heq.symm hid
                · exact hm
              · exact List.mem_cons_of_mem _
            by_cases hm : "wcag_compliance" ∈ rest
            · rw [if_pos hm, if_pos (hmem.mpr hm)]
            · rw [if_neg hm, if_neg (fun h => hm (hmem.mp h))]

/-- `calculateOverallRating` only writes `overallRating`. -/
theorem rating_preserves (r : Report) :
    (calculateOverallRating r).valid = r.valid ∧
    (calculateOverallRating r).results = r.results := by
  rw [calculateOverallRating]
  by_cases hv : !r.valid
  · rw [if_pos hv]; exact ⟨rfl, rfl⟩
  · rw [if_neg hv]
    split
    all_goals try exact ⟨rfl, rfl⟩
    all_goals split
    all_goals try exact ⟨rfl, rfl⟩
    all_goals split
    all_goals exact ⟨rfl, rfl⟩

/-- An invalid report is rated `0` by `calculateOverallRating`. -/
theorem rating_of_invalid (r : Report) (h : r.valid = false) :
    (calculateOverallRating r).overallRating = some 0 := by
  rw [calculateOverallRating, if_pos (by rw [h]; rfl)]

end ValidationEngine

end CPG

namespace CPG

/-- Every WCAG threshold is at least 3. -/
theorem thresholds_ge3 (level : WcagLevel) (textSize : TextSize) :
    (3 : ℚ) ≤ thresholds level textSize := by
  cases level <;> cases textSize <;> norm_num [thresholds]

/-- Inversion of `checkCompliance`: any successful result carries the
threshold as `requiredValue` and the comparison verdict as
`compliant`. -/
theorem checkCompliance_inv {g : ℚ → ℚ} {c1 c2 : String}
    {level : WcagLevel} {textSize : TextSize} {comp : ComplianceResult}
    (h : checkCompliance g c1 c2 level textSize = .ok comp) :
    comp.requiredValue = thresholds level textSize ∧
    comp.compliant = decide (thresholds level textSize ≤ comp.contrastValue) := by
  rw [checkCompliance] at h
  cases hq : calculateContrast g c1 c2 with
  | error e => rw [hq] at h; exact absurd h (by simp [Except.bind, bind])
  | ok q =>
      rw [hq] at h
      cases hp1 : parseColor c1 with
      | error e => rw [hp1] at h; exact absurd h (by simp [Except.bind, bind])
      | ok h1 =>
          rw [hp1] at h
          cases hp2 : parseColor c2 with
          | error e => rw [hp2] at h; exact absurd h (by simp [Except.bind, bind])
          | ok h2 =>
              rw [hp2] at h
              simp only [Except.bind, bind, pure, Except.pure,
                Except.ok.injEq] at h
              rw [← h]
              exact ⟨rfl, rfl⟩

end CPG

namespace CPG

namespace ValidationEngine

/-- The running minimum stays at least 3 while every processed pair is
compliant. -/
theorem lowestFold_ge3 (g : ℚ → ℚ) (colors : List String)
    (wcagLevel : WcagLevel) (textSize : TextSize) :
    ∀ (l : List ℕ),
      (∀ i ∈ l, wcagPairCompliant g colors wcagLevel textSize i = true) →
      ∀ acc : WithTop ℚ, ((3 : ℚ) : WithTop ℚ) ≤ acc →
        ((3 : ℚ) : WithTop ℚ) ≤
          l.foldl (lowestStep g colors wcagLevel textSize) acc := by
  intro l
  induction l with
  | nil => intro _ acc hacc; exact hacc
  | cons i rest ih =>
      intro hall acc hacc
      rw [List.foldl_cons]
      refine ih (fun j hj => hall j (List.mem_cons_of_mem _ hj)) _ ?_
      have hpc := hall i (List.mem_cons_self _ _)
      rw [wcagPairCompliant] at hpc
      rw [lowestStep]
      cases hc : checkCompliance g (colors.getD i "")
          (colors.getD ((i + 1) % colors.length) "") wcagLevel textSize with
      | error e => rw [hc] at hpc; exact absurd hpc (by simp)
      | ok comp =>
          rw [hc] at hpc
          have hpcc : comp.compliant = true := hpc
          obtain ⟨-, hcompl⟩ := checkCompliance_inv hc
          rw [hpcc] at hcompl
          have hge : thresholds wcagLevel textSize ≤ comp.contrastValue := by
            have h := hcompl.symm
            rw [decide_eq_true_eq] at h
            exact h
          have h3 : (3 : ℚ) ≤ comp.contrastValue :=
            le_trans (thresholds_ge3 wcagLevel textSize) hge
          show ((3 : ℚ) : WithTop ℚ) ≤
            (if (comp.contrastValue : WithTop ℚ) < acc
             then (comp.contrastValue : WithTop ℚ) else acc)
          by_cases hlt : (comp.contrastValue : WithTop ℚ) < acc
          · rw [if_pos hlt]
            exact_mod_cast h3
          · rw [if_neg hlt]
            exact hacc

/-- The lowest adjacent contrast of a fully compliant swatch is at
least 3, hence nonzero. -/
theorem adjacentLowest_ge3 (g : ℚ → ℚ) (colors : List String)
    (wcagLevel : WcagLevel) (textSize : TextSize)
    (hall : ∀ i ∈ List.range colors.length,
      wcagPairCompliant g colors wcagLevel textSize i = true) :
    ((3 : ℚ) : WithTop ℚ) ≤ adjacentLowest g colors wcagLevel textSize := by
  rw [adjacentLowest]
  exact lowestFold_ge3 g colors wcagLevel textSize _ hall ⊤ le_top

end ValidationEngine

end CPG

namespace CPG

/-- C5 (amended): `overallRating` is `0` whenever the report is invalid
(for any failing rule — not the lowest contrast); on a valid report it
is the lowest cyclic-adjacent contrast computed by the wcag rule when
`wcag_compliance` was among the rules run, and `null` when it was
not. -/
theorem C5_overall_rating (g : ℚ → ℚ) (colors : List String)
    (opts : ValidationEngine.VOptions) :
    ((ValidationEngine.validateSwatch g colors opts).valid = false →
      (ValidationEngine.validateSwatch g colors opts).overallRating = some 0) ∧
    ((ValidationEngine.validateSwatch g colors opts).valid = true →
      "wcag_compliance" ∈ opts.rules →
      (ValidationEngine.validateSwatch g colors opts).overallRating =
        some (ValidationEngine.adjacentLowest g colors opts.wcagLevel
          opts.textSize)) ∧
    ((ValidationEngine.validateSwatch g colors opts).valid = true →
      "wcag_compliance" ∉ opts.rules →
      (ValidationEngine.validateSwatch g colors opts).overallRating = none) := by
  have hVS : ValidationEngine.validateSwatch g colors opts =
      ValidationEngine.calculateOverallRating
        (opts.rules.foldl (ValidationEngine.ruleStep g colors opts)
          { valid := true, results := [], errors := [], warnings := []
            overallRating := none }) := rfl
  set F := opts.rules.foldl (ValidationEngine.ruleStep g colors opts)
    { valid := true, results := [], errors := [], warnings := []
      overallRating := none } with hF
  have hvalid : (ValidationEngine.validateSwatch g colors opts).valid =
      F.valid := by
    rw [hVS]
    exact (ValidationEngine.rating_preserves F).1
  have hres : F.results =
      opts.rules.filterMap (ValidationEngine.ruleEntryOf g colors opts) := by
    rw [hF, ValidationEngine.ruleFold_results]
    simp
  refine ⟨?_, ?_, ?_⟩
  · intro h
    rw [hvalid] at h
    rw [hVS]
    exact ValidationEngine.rating_of_invalid F h
  · intro hval hw
    have hFv : F.valid = true := by rw [← hvalid]; exact hval
    have hWv : (ValidationEngine.validateWCAGCompliance g colors
        opts.wcagLevel opts.textSize).valid = true := by
      have hfold := ValidationEngine.ruleFold_valid g colors opts opts.rules
        { valid := true, results := [], errors := [], warnings := []
          overallRating := none }
      rw [← hF, hFv] at hfold
      have hall := (List.all_eq_true).mp (by
        rw [Bool.true_and] at hfold
        exact hfold.symm)
      exact hall _ hw
    have h2 : 2 ≤ colors.length := by
      by_contra hlt
      push_neg at hlt
      rw [ValidationEngine.validateWCAGCompliance, if_pos hlt] at hWv
      exact absurd hWv (by simp)
    have hpairs : ∀ i ∈ List.range colors.length,
        ValidationEngine.wcagPairCompliant g colors opts.wcagLevel
          opts.textSize i = true := by
      have hv := ValidationEngine.wcag_valid_eq g colors opts.wcagLevel
        opts.textSize h2
      rw [hWv] at hv
      exact (List.all_eq_true).mp hv.symm
    have h3le := ValidationEngine.adjacentLowest_ge3 g colors opts.wcagLevel
      opts.textSize hpairs
    have hne : ValidationEngine.adjacentLowest g colors opts.wcagLevel
        opts.textSize ≠ 0 := by
      intro h0
      rw [h0] at h3le
      have h30 : ((3 : ℚ) : WithTop ℚ) ≤ ((0 : ℚ) : WithTop ℚ) := by
        exact_mod_cast h3le
      have : (3 : ℚ) ≤ 0 := WithTop.coe_le_coe.mp h30
      norm_num at this
    have hfind : F.results.find? (fun r => r.rule = "wcag_compliance") =
        some { rule := "wcag_compliance"
               outcome := ValidationEngine.validateWCAGCompliance g colors
                 opts.wcagLevel opts.textSize } := by
      rw [hres, ValidationEngine.find_wcag, if_pos hw]
    have hdl := ValidationEngine.wcag_detailsLowest g colors opts.wcagLevel
      opts.textSize h2
    rw [hVS, ValidationEngine.calculateOverallRating,
      if_neg (by rw [hFv]; simp)]
    simp only [hfind, hdl]
    rw [if_pos hne]
  · intro hval hnw
    have hFv : F.valid = true := by rw [← hvalid]; exact hval
    have hfind : F.results.find? (fun r => r.rule = "wcag_compliance") =
        none := by
      rw [hres, ValidationEngine.find_wcag, if_neg hnw]
    rw [hVS, ValidationEngine.calculateOverallRating,
      if_neg (by rw [hFv]; simp)]
    simp only [hfind]

end CPG

namespace CPG

/-- C5 counterexample: on the swatch `[#000000, #0A0A0A]` with the
default rules, the wcag rule finds lowest adjacent contrast 1.06, the
report is invalid, and `overallRating` is `0` — not the lowest adjacent
contrast as the claim states. -/
theorem C5_counterexample :
    (ValidationEngine.validateSwatch (fun _ => 0) ["#000000", "#0A0A0A"]
        {}).overallRating = some 0 ∧
    ValidationEngine.adjacentLowest (fun _ => 0) ["#000000", "#0A0A0A"]
        .AA .normal = ((53 / 50 : ℚ) : WithTop ℚ) ∧
    (some ((53 / 50 : ℚ) : WithTop ℚ) ≠ (some 0 : Option (WithTop ℚ))) := by
  have hp1 : parseColor "#000000" = .ok "#000000" := by decide
  have hp2 : parseColor "#0A0A0A" = .ok "#0A0A0A" := by decide
  have hr1 : hexToRgb "#000000" = .ok ⟨0, 0, 0⟩ := by decide
  have hr2 : hexToRgb "#0A0A0A" = .ok ⟨10, 10, 10⟩ := by decide
  have hratio1 : round2 ((max (rgbToLuminance (fun _ => 0) ⟨0, 0, 0⟩)
        (rgbToLuminance (fun _ => 0) ⟨10, 10, 10⟩) + 5 / 100) /
      (min (rgbToLuminance (fun _ => 0) ⟨0, 0, 0⟩)
        (rgbToLuminance (fun _ => 0) ⟨10, 10, 10⟩) + 5 / 100)) = 53 / 50 := by
    norm_num [rgbToLuminance, gammaCorrect, round2, max_def, min_def]
  have hratio2 : round2 ((max (rgbToLuminance (fun _ => 0) ⟨10, 10, 10⟩)
        (rgbToLuminance (fun _ => 0) ⟨0, 0, 0⟩) + 5 / 100) /
      (min (rgbToLuminance (fun _ => 0) ⟨10, 10, 10⟩)
        (rgbToLuminance (fun _ => 0) ⟨0, 0, 0⟩) + 5 / 100)) = 53 / 50 := by
    norm_num [rgbToLuminance, gammaCorrect, round2, max_def, min_def]
  have hdec : (decide (thresholds .AA .normal ≤ (53 / 50 : ℚ))) = false :=
    decide_eq_false (by norm_num [thresholds])
  have hcc1 : checkCompliance (fun _ => 0) "#000000" "#0A0A0A" .AA .normal =
      .ok { contrastValue := 53 / 50, requiredValue := thresholds .AA .normal
            compliant := false, level := .AA, textSize := .normal
            color1 := "#000000", color2 := "#0A0A0A" } := by
    rw [checkCompliance_eq hp1 hp2 hr1 hr2, hratio1, hdec]
  have hcc2 : checkCompliance (fun _ => 0) "#0A0A0A" "#000000" .AA .normal =
      .ok { contrastValue := 53 / 50, requiredValue := thresholds .AA .normal
            compliant := false, level := .AA, textSize := .normal
            color1 := "#0A0A0A", color2 := "#000000" } := by
    rw [checkCompliance_eq hp2 hp1 hr2 hr1, hratio2, hdec]
  have hpc0 : ValidationEngine.wcagPairCompliant (fun _ => 0)
      ["#000000", "#0A0A0A"] .AA .normal 0 = false := by
    show (match checkCompliance (fun _ => 0) "#000000" "#0A0A0A" .AA .normal with
          | .ok comp => comp.compliant
          | .error _ => false) = false
    rw [hcc1]
  have hWv : (ValidationEngine.validateWCAGCompliance (fun _ => 0)
      ["#000000", "#0A0A0A"] .AA .normal).valid = false := by
    rw [ValidationEngine.wcag_valid_eq (fun _ => 0) ["#000000", "#0A0A0A"]
      .AA .normal (by simp)]
    rw [show List.range (["#000000", "#0A0A0A"] : List String).length = [0, 1]
      from rfl]
    rw [List.all_cons, hpc0]
    rfl
  have hFv : ((["wcag_compliance", "no_duplicates", "color_count",
      "color_format"] : List String).foldl
        (ValidationEngine.ruleStep (fun _ => 0) ["#000000", "#0A0A0A"] {})
        { valid := true, results := [], errors := [], warnings := []
          overallRating := none }).valid = false := by
    rw [ValidationEngine.ruleFold_valid]
    have hrv : ValidationEngine.ruleValidOf (fun _ => 0)
        ["#000000", "#0A0A0A"] {} "wcag_compliance" = false := hWv
    rw [List.all_cons, hrv]
    rfl
  refine ⟨?_, ?_, ?_⟩
  · show (ValidationEngine.calculateOverallRating
        ((["wcag_compliance", "no_duplicates", "color_count",
          "color_format"] : List String).foldl
          (ValidationEngine.ruleStep (fun _ => 0) ["#000000", "#0A0A0A"] {})
          { valid := true, results := [], errors := [], warnings := []
            overallRating := none })).overallRating = some 0
    exact ValidationEngine.rating_of_invalid _ hFv
  · rw [ValidationEngine.adjacentLowest]
    rw [show List.range (["#000000", "#0A0A0A"] : List String).length = [0, 1]
      from rfl]
    rw [List.foldl_cons, List.foldl_cons, List.foldl_nil]
    have hs0 : ValidationEngine.lowestStep (fun _ => 0)
        ["#000000", "#0A0A0A"] .AA .normal ⊤ 0 = ((53 / 50 : ℚ) : WithTop ℚ) := by
      show (match checkCompliance (fun _ => 0) "#000000" "#0A0A0A" .AA .normal with
            | .ok comp =>
                if (comp.contrastValue : WithTop ℚ) < ⊤
                then (comp.contrastValue : WithTop ℚ) else ⊤
            | .error _ => (⊤ : WithTop ℚ)) = ((53 / 50 : ℚ) : WithTop ℚ)
      rw [hcc1]
      show (if ((53 / 50 : ℚ) : WithTop ℚ) < ⊤
            then ((53 / 50 : ℚ) : WithTop ℚ) else ⊤) = ((53 / 50 : ℚ) : WithTop ℚ)
      rw [if_pos (WithTop.coe_lt_top _)]
    have hs1 : ValidationEngine.lowestStep (fun _ => 0)
        ["#000000", "#0A0A0A"] .AA .normal ((53 / 50 : ℚ) : WithTop ℚ) 1 =
        ((53 / 50 : ℚ) : WithTop ℚ) := by
      show (match checkCompliance (fun _ => 0) "#0A0A0A" "#000000" .AA .normal with
            | .ok comp =>
                if (comp.contrastValue : WithTop ℚ) < ((53 / 50 : ℚ) : WithTop ℚ)
                then (comp.contrastValue : WithTop ℚ)
                else ((53 / 50 : ℚ) : WithTop ℚ)
            | .error _ => ((53 / 50 : ℚ) : WithTop ℚ)) =
          ((53 / 50 : ℚ) : WithTop ℚ)
      rw [hcc2]
      show (if ((53 / 50 : ℚ) : WithTop ℚ) < ((53 / 50 : ℚ) : WithTop ℚ)
            then ((53 / 50 : ℚ) : WithTop ℚ)
            else ((53 / 50 : ℚ) : WithTop ℚ)) = ((53 / 50 : ℚ) : WithTop ℚ)
      rw [if_neg (lt_irrefl _)]
    rw [hs0, hs1]
  · intro h
    rw [Option.some.injEq] at h
    have h0 : ((53 / 50 : ℚ) : WithTop ℚ) = ((0 : ℚ) : WithTop ℚ) := by
      exact_mod_cast h
    have : (53 / 50 : ℚ) = 0 := WithTop.coe_eq_coe.mp h0
    norm_num at this

/-- C5 witness: a valid report whose rules do not include
`wcag_compliance` is rated `null`. -/
theorem C5_witness :
    ((ValidationEngine.validateSwatch (fun _ => 1) ["#000000", "#FFFFFF"]
        { rules := ["no_duplicates"] }).valid = true) ∧
    ("wcag_compliance" ∉ (["no_duplicates"] : List String)) ∧
    ((ValidationEngine.validateSwatch (fun _ => 1) ["#000000", "#FFFFFF"]
        { rules := ["no_duplicates"] }).overallRating = none) := by
  have hvalid : (ValidationEngine.validateSwatch (fun _ => 1)
      ["#000000", "#FFFFFF"] { rules := ["no_duplicates"] }).valid = true := by
    decide
  have hnmem : "wcag_compliance" ∉ (["no_duplicates"] : List String) := by
    decide
  exact ⟨hvalid, hnmem,
    (C5_overall_rating (fun _ => 1) ["#000000", "#FFFFFF"]
      { rules := ["no_duplicates"] }).2.2 hvalid hnmem⟩

end CPG

namespace CPG

/-! ## Claim C3 (corrected) -/

/-- Canonical inputs parse to themselves, so `mapM parseColor` is the
identity on them. -/
theorem mapM_parseColor_id (l : List String)
    (h : ∀ x ∈ l, parseColor x = .ok x) : l.mapM parseColor = .ok l := by
  induction l with
  | nil => rfl
  | cons c rest ih =>
      rw [List.mapM_cons, h c (List.mem_cons_self _ _),
        ih (fun x hx => h x (List.mem_cons_of_mem _ hx))]
      rfl

/-- A successful `validateSwatch` returns the parses of its inputs as
the swatch colors. -/
theorem validateSwatch_colors {g : ℚ → ℚ} {colors : List String}
    {wcagLevel : WcagLevel} {sw : SwatchGenerator.Swatch}
    (hok : SwatchGenerator.validateSwatch g colors wcagLevel = .ok sw) :
    colors.mapM parseColor = .ok sw.colors := by
  rw [SwatchGenerator.validateSwatch] at hok
  cases hm : colors.mapM parseColor with
  | error e =>
      rw [hm] at hok
      exact absurd hok (by simp [Except.bind, bind])
  | ok parsed =>
      rw [hm] at hok
      simp only [Except.bind, bind] at hok
      cases hf : (List.range colors.length).foldlM
          (SwatchGenerator.vsStep g colors wcagLevel)
          SwatchGenerator.vsInit with
      | error e => rw [hf] at hok; exact absurd hok (by simp)
      | ok final =>
          rw [hf] at hok
          simp only [pure, Except.pure, Except.ok.injEq] at hok
          rw [← hok]

/-- On canonical inputs a successful `validateSwatch` keeps the color
list unchanged. -/
theorem validateSwatch_colors_id {g : ℚ → ℚ} {colors : List String}
    {wcagLevel : WcagLevel} {sw : SwatchGenerator.Swatch}
    (hcanon : ∀ x ∈ colors, parseColor x = .ok x)
    (hok : SwatchGenerator.validateSwatch g colors wcagLevel = .ok sw) :
    sw.colors = colors := by
  have h1 := validateSwatch_colors hok
  rw [mapM_parseColor_id colors hcanon] at h1
  rw [Except.ok.injEq] at h1
  exact h1.symm

/-- Evaluation of the generator's per-pair step on a successful
compliance check. -/
theorem vsStep_eq {g : ℚ → ℚ} {colors : List String}
    {wcagLevel : WcagLevel} {acc : SwatchGenerator.VsAcc} {i : ℕ}
    {comp : ComplianceResult}
    (hc : checkCompliance g (colors.getD i "")
      (colors.getD ((i + 1) % colors.length) "") wcagLevel .normal = .ok comp) :
    SwatchGenerator.vsStep g colors wcagLevel acc i =
      .ok { adjacentContrasts := acc.adjacentContrasts ++
              [{ pairIdx := (i, (i + 1) % colors.length)
                 contrastValue := comp.contrastValue
                 compliant := comp.compliant }]
            overallRating :=
              if (comp.contrastValue : WithTop ℚ) < acc.overallRating
              then (comp.contrastValue : WithTop ℚ) else acc.overallRating
            compliant := acc.compliant && comp.compliant } := by
  simp only [SwatchGenerator.vsStep, hc, Except.bind, bind]
  rfl

end CPG

namespace CPG

/-- Inversion of the generator's per-pair step: the compliance flag is
conjoined with the pair's verdict (which is the same test the engine's
wcag rule performs with text size `normal`). -/
theorem vsStep_compliant {g : ℚ → ℚ} {colors : List String}
    {wcagLevel : WcagLevel} {acc acc1 : SwatchGenerator.VsAcc} {i : ℕ}
    (h : SwatchGenerator.vsStep g colors wcagLevel acc i = .ok acc1) :
    acc1.compliant =
      (acc.compliant &&
        ValidationEngine.wcagPairCompliant g colors wcagLevel .normal i) := by
  rw [SwatchGenerator.vsStep] at h
  rw [ValidationEngine.wcagPairCompliant]
  cases hc : checkCompliance g (colors.getD i "")
      (colors.getD ((i + 1) % colors.length) "") wcagLevel .normal with
  | error e =>
      rw [hc] at h
      exact absurd h (by simp [Except.bind, bind])
  | ok comp =>
      rw [hc] at h
      simp only [Except.bind, bind, pure, Except.pure, Except.ok.injEq] at h
      rw [← h]

/-- The compliance flag of the pair fold. -/
theorem vsFold_compliant {g : ℚ → ℚ} {colors : List String}
    {wcagLevel : WcagLevel} :
    ∀ (l : List ℕ) (acc final : SwatchGenerator.VsAcc),
      l.foldlM (SwatchGenerator.vsStep g colors wcagLevel) acc = .ok final →
      final.compliant =
        (acc.compliant &&
          l.all (ValidationEngine.wcagPairCompliant g colors wcagLevel .normal)) := by
  intro l
  induction l with
  | nil =>
      intro acc final h
      simp only [List.foldlM_nil, pure, Except.pure, Except.ok.injEq] at h
      rw [← h]
      simp
  | cons i rest ih =>
      intro acc final h
      rw [List.foldlM_cons] at h
      cases hs : SwatchGenerator.vsStep g colors wcagLevel acc i with
      | error e => rw [hs] at h; exact absurd h (by simp [Except.bind, bind])
      | ok acc1 =>
          rw [hs] at h
          simp only [Except.bind, bind] at h
          rw [ih acc1 final h, vsStep_compliant hs, List.all_cons,
            Bool.and_assoc]

/-- A created swatch is compliant exactly when every cyclic-adjacent
pair passes the threshold test. -/
theorem validateSwatch_compliant {g : ℚ → ℚ} {colors : List String}
    {wcagLevel : WcagLevel} {sw : SwatchGenerator.Swatch}
    (hok : SwatchGenerator.validateSwatch g colors wcagLevel = .ok sw) :
    sw.compliant = (List.range colors.length).all
      (ValidationEngine.wcagPairCompliant g colors wcagLevel .normal) := by
  rw [SwatchGenerator.validateSwatch] at hok
  cases hm : colors.mapM parseColor with
  | error e => rw [hm] at hok; exact absurd hok (by simp [Except.bind, bind])
  | ok parsed =>
      rw [hm] at hok
      simp only [Except.bind, bind] at hok
      cases hf : (List.range colors.length).foldlM
          (SwatchGenerator.vsStep g colors wcagLevel)
          SwatchGenerator.vsInit with
      | error e => rw [hf] at hok; exact absurd hok (by simp)
      | ok final =>
          rw [hf] at hok
          simp only [pure, Except.pure, Except.ok.injEq] at hok
          rw [← hok]
          have h := vsFold_compliant _ _ _ hf
          rw [h]
          rfl

/-- A compliant rotation is appended to `validSwatches`. -/
theorem processRotation_compliant {g : ℚ → ℚ} {wcagLevel : WcagLevel}
    {key : String} {st : SwatchGenerator.GenState} {rot : List String}
    {sw : SwatchGenerator.Swatch}
    (hok : SwatchGenerator.validateSwatch g rot wcagLevel = .ok sw)
    (hcompl : sw.compliant = true) :
    ∃ st', SwatchGenerator.processRotation g wcagLevel key st rot = .ok st' ∧
      st'.validSwatches = st.validSwatches ++ [sw] := by
  rw [SwatchGenerator.processRotation]
  simp only [hok, Except.bind, bind, hcompl]
  exact ⟨_, rfl, rfl⟩

/-- A run of compliant rotations appends exactly those rotations (in
order) to the valid list. -/
theorem rotationsFold_compliant {g : ℚ → ℚ} {wcagLevel : WcagLevel}
    {key : String} :
    ∀ (rots : List (List String)) (st : SwatchGenerator.GenState),
      (∀ rot ∈ rots, ∃ sw,
        SwatchGenerator.validateSwatch g rot wcagLevel = .ok sw ∧
        sw.compliant = true ∧ sw.colors = rot) →
      ∃ st', rots.foldlM (SwatchGenerator.processRotation g wcagLevel key) st =
          .ok st' ∧
        st'.validSwatches.map (fun s => s.colors) =
          st.validSwatches.map (fun s => s.colors) ++ rots := by
  intro rots
  induction rots with
  | nil =>
      intro st _
      exact ⟨st, rfl, by simp⟩
  | cons r rs ih =>
      intro st hall
      obtain ⟨sw, hok, hcompl, hcol⟩ := hall r (List.mem_cons_self _ _)
      obtain ⟨st1, h1, hvs1⟩ := processRotation_compliant hok hcompl
      obtain ⟨st', h2, hvs2⟩ := ih st1
        (fun rot hr => hall rot (List.mem_cons_of_mem _ hr))
      refine ⟨st', ?_, ?_⟩
      · rw [List.foldlM_cons, h1]
        exact h2
      · rw [hvs2, hvs1]
        simp [hcol]

/-- A fresh combination (key not yet memoized) with all rotations
compliant contributes exactly its rotations. -/
theorem processCombination_fresh {g : ℚ → ℚ} {wcagLevel : WcagLevel}
    {st : SwatchGenerator.GenState} {c : List String}
    (hfresh : st.uniqueSwatches.contains
      (SwatchGenerator.getNormalizedKey c) = false)
    (hall : ∀ rot ∈ SwatchGenerator.generateRotations c, ∃ sw,
      SwatchGenerator.validateSwatch g rot wcagLevel = .ok sw ∧
      sw.compliant = true ∧ sw.colors = rot) :
    ∃ st', SwatchGenerator.processCombination g wcagLevel st c = .ok st' ∧
      st'.validSwatches.map (fun s => s.colors) =
        st.validSwatches.map (fun s => s.colors) ++
          SwatchGenerator.generateRotations c := by
  rw [SwatchGenerator.processCombination]
  simp only [hfresh]
  obtain ⟨st', h1, hvs⟩ := rotationsFold_compliant
    (SwatchGenerator.generateRotations c)
    { st with stats := { st.stats with generated := st.stats.generated + 1 } }
    hall
  refine ⟨st', ?_, by rw [hvs]⟩
  simp only [Bool.false_eq_true, if_false]
  exact h1

end CPG

namespace CPG

/-- Shared concrete facts: both orientations of the black/white pair
pass AA at ratio 21. -/
theorem checkCompliance_BW :
    checkCompliance (fun _ => 1) "#000000" "#FFFFFF" .AA .normal =
      .ok { contrastValue := 21, requiredValue := thresholds .AA .normal
            compliant := true, level := .AA, textSize := .normal
            color1 := "#000000", color2 := "#FFFFFF" } ∧
    checkCompliance (fun _ => 1) "#FFFFFF" "#000000" .AA .normal =
      .ok { contrastValue := 21, requiredValue := thresholds .AA .normal
            compliant := true, level := .AA, textSize := .normal
            color1 := "#FFFFFF", color2 := "#000000" } := by
  have hp1 : parseColor "#000000" = .ok "#000000" := by decide
  have hp2 : parseColor "#FFFFFF" = .ok "#FFFFFF" := by decide
  have hr1 : hexToRgb "#000000" = .ok ⟨0, 0, 0⟩ := by decide
  have hr2 : hexToRgb "#FFFFFF" = .ok ⟨255, 255, 255⟩ := by decide
  have hdec : (decide (thresholds .AA .normal ≤ (21 : ℚ))) = true :=
    decide_eq_true (by norm_num [thresholds])
  have hratio1 : round2 ((max (rgbToLuminance (fun _ => 1) ⟨0, 0, 0⟩)
        (rgbToLuminance (fun _ => 1) ⟨255, 255, 255⟩) + 5 / 100) /
      (min (rgbToLuminance (fun _ => 1) ⟨0, 0, 0⟩)
        (rgbToLuminance (fun _ => 1) ⟨255, 255, 255⟩) + 5 / 100)) = 21 := by
    norm_num [rgbToLuminance, gammaCorrect, round2, max_def, min_def]
  have hratio2 : round2 ((max (rgbToLuminance (fun _ => 1) ⟨255, 255, 255⟩)
        (rgbToLuminance (fun _ => 1) ⟨0, 0, 0⟩) + 5 / 100) /
      (min (rgbToLuminance (fun _ => 1) ⟨255, 255, 255⟩)
        (rgbToLuminance (fun _ => 1) ⟨0, 0, 0⟩) + 5 / 100)) = 21 := by
    norm_num [rgbToLuminance, gammaCorrect, round2, max_def, min_def]
  constructor
  · rw [checkCompliance_eq hp1 hp2 hr1 hr2, hratio1, hdec]
  · rw [checkCompliance_eq hp2 hp1 hr2 hr1, hratio2, hdec]

/-- Both rotations of the black/white pair validate as compliant
swatches with unchanged (canonical) colors. -/
theorem validateSwatch_BW_rotations :
    ∀ rot ∈ SwatchGenerator.generateRotations ["#000000", "#FFFFFF"], ∃ sw,
      SwatchGenerator.validateSwatch (fun _ => 1) rot .AA = .ok sw ∧
      sw.compliant = true ∧ sw.colors = rot := by
  obtain ⟨hccBW, hccWB⟩ := checkCompliance_BW
  have hrot : SwatchGenerator.generateRotations ["#000000", "#FFFFFF"] =
      [["#000000", "#FFFFFF"], ["#FFFFFF", "#000000"]] := rfl
  have hpB : ∃ h, parseColor "#000000" = .ok h := ⟨"#000000", by decide⟩
  have hpW : ∃ h, parseColor "#FFFFFF" = .ok h := ⟨"#FFFFFF", by decide⟩
  have hmemBW : ∀ c ∈ (["#000000", "#FFFFFF"] : List String),
      ∃ h, parseColor c = .ok h := by
    intro c hc
    simp only [List.mem_cons, List.not_mem_nil, or_false] at hc
    rcases hc with rfl | rfl
    · exact hpB
    · exact hpW
  have hmemWB : ∀ c ∈ (["#FFFFFF", "#000000"] : List String),
      ∃ h, parseColor c = .ok h := by
    intro c hc
    simp only [List.mem_cons, List.not_mem_nil, or_false] at hc
    rcases hc with rfl | rfl
    · exact hpW
    · exact hpB
  have hcanonBW : ∀ x ∈ (["#000000", "#FFFFFF"] : List String),
      parseColor x = .ok x := by
    intro c hc
    simp only [List.mem_cons, List.not_mem_nil, or_false] at hc
    rcases hc with rfl | rfl <;> decide
  have hcanonWB : ∀ x ∈ (["#FFFFFF", "#000000"] : List String),
      parseColor x = .ok x := by
    intro c hc
    simp only [List.mem_cons, List.not_mem_nil, or_false] at hc
    rcases hc with rfl | rfl <;> decide
  have hexBW : ∃ sw, SwatchGenerator.validateSwatch (fun _ => 1)
      ["#000000", "#FFFFFF"] .AA = .ok sw ∧
      sw.compliant = true ∧ sw.colors = ["#000000", "#FFFFFF"] := by
    obtain ⟨sw, hok, -⟩ := validateSwatch_ok (fun _ => 1)
      ["#000000", "#FFFFFF"] .AA hmemBW
    refine ⟨sw, hok, ?_, validateSwatch_colors_id hcanonBW hok⟩
    rw [validateSwatch_compliant hok]
    rw [show List.range ((["#000000", "#FFFFFF"] : List String).length) = [0, 1]
      from rfl]
    have hpc0 : ValidationEngine.wcagPairCompliant (fun _ => 1)
        ["#000000", "#FFFFFF"] .AA .normal 0 = true := by
      show (match checkCompliance (fun _ => 1) "#000000" "#FFFFFF" .AA .normal with
            | .ok comp => comp.compliant
            | .error _ => false) = true
      rw [hccBW]
    have hpc1 : ValidationEngine.wcagPairCompliant (fun _ => 1)
        ["#000000", "#FFFFFF"] .AA .normal 1 = true := by
      show (match checkCompliance (fun _ => 1) "#FFFFFF" "#000000" .AA .normal with
            | .ok comp => comp.compliant
            | .error _ => false) = true
      rw [hccWB]
    rw [List.all_cons, List.all_cons, List.all_nil, hpc0, hpc1]
    rfl
  have hexWB : ∃ sw, SwatchGenerator.validateSwatch (fun _ => 1)
      ["#FFFFFF", "#000000"] .AA = .ok sw ∧
      sw.compliant = true ∧ sw.colors = ["#FFFFFF", "#000000"] := by
    obtain ⟨sw, hok, -⟩ := validateSwatch_ok (fun _ => 1)
      ["#FFFFFF", "#000000"] .AA hmemWB
    refine ⟨sw, hok, ?_, validateSwatch_colors_id hcanonWB hok⟩
    rw [validateSwatch_compliant hok]
    rw [show List.range ((["#FFFFFF", "#000000"] : List String).length) = [0, 1]
      from rfl]
    have hpc0 : ValidationEngine.wcagPairCompliant (fun _ => 1)
        ["#FFFFFF", "#000000"] .AA .normal 0 = true := by
      show (match checkCompliance (fun _ => 1) "#FFFFFF" "#000000" .AA .normal with
            | .ok comp => comp.compliant
            | .error _ => false) = true
      rw [hccWB]
    have hpc1 : ValidationEngine.wcagPairCompliant (fun _ => 1)
        ["#FFFFFF", "#000000"] .AA .normal 1 = true := by
      show (match checkCompliance (fun _ => 1) "#000000" "#FFFFFF" .AA .normal with
            | .ok comp => comp.compliant
            | .error _ => false) = true
      rw [hccBW]
    rw [List.all_cons, List.all_cons, List.all_nil, hpc0, hpc1]
    rfl
  rw [hrot]
  intro rot hr
  simp only [List.mem_cons, List.not_mem_nil, or_false] at hr
  rcases hr with rfl | rfl
  · exact hexBW
  · exact hexWB

/-- C3 counterexample: one black/white combination yields TWO returned
swatches that are rotations of the same color set — `processBatch`
pushes every compliant rotation of a retained combination. -/
theorem C3_counterexample :
    ∃ st, SwatchGenerator.processBatch (fun _ => 1) .AA
        [["#000000", "#FFFFFF"]] SwatchGenerator.initialGenState = .ok st ∧
      st.validSwatches.map (fun s => s.colors) =
        [["#000000", "#FFFFFF"], ["#FFFFFF", "#000000"]] ∧
      (["#FFFFFF", "#000000"] : List String) =
        (["#000000", "#FFFFFF"] : List String).rotate 1 := by
  have hfresh : SwatchGenerator.initialGenState.uniqueSwatches.contains
      (SwatchGenerator.getNormalizedKey ["#000000", "#FFFFFF"]) = false := rfl
  obtain ⟨st, hpc, hmap⟩ := processCombination_fresh hfresh
    validateSwatch_BW_rotations
  refine ⟨st, ?_, ?_, by decide⟩
  · rw [SwatchGenerator.processBatch, List.foldlM_cons, hpc]
    rfl
  · rw [hmap]
    rfl

end CPG

namespace CPG

/-- Any successful `processRotation` appends at most the processed
rotation (on canonical inputs). -/
theorem processRotation_sublist {g : ℚ → ℚ} {wcagLevel : WcagLevel}
    {key : String} {st st' : SwatchGenerator.GenState} {rot : List String}
    (hcanon : ∀ x ∈ rot, parseColor x = .ok x)
    (hok : SwatchGenerator.processRotation g wcagLevel key st rot = .ok st') :
    ∃ t, st'.validSwatches = st.validSwatches ++ t ∧
      List.Sublist (t.map (fun s => s.colors)) [rot] := by
  rw [SwatchGenerator.processRotation] at hok
  cases hsw : SwatchGenerator.validateSwatch g rot wcagLevel with
  | error e => rw [hsw] at hok; exact absurd hok (by simp [Except.bind, bind])
  | ok sw =>
      rw [hsw] at hok
      simp only [Except.bind, bind] at hok
      by_cases hc : sw.compliant
      · rw [if_pos hc] at hok
        simp only [pure, Except.pure, Except.ok.injEq] at hok
        refine ⟨[sw], ?_, ?_⟩
        · rw [← hok]
        · rw [List.map_cons, List.map_nil,
            validateSwatch_colors_id hcanon hsw]
      · rw [if_neg hc] at hok
        simp only [pure, Except.pure, Except.ok.injEq] at hok
        refine ⟨[], ?_, List.nil_sublist _⟩
        rw [← hok, List.append_nil]

/-- The rotations fold appends a sublist of the processed rotations. -/
theorem rotationsFold_sublist {g : ℚ → ℚ} {wcagLevel : WcagLevel}
    {key : String} :
    ∀ (rots : List (List String)) (st st' : SwatchGenerator.GenState),
      (∀ rot ∈ rots, ∀ x ∈ rot, parseColor x = .ok x) →
      rots.foldlM (SwatchGenerator.processRotation g wcagLevel key) st =
        .ok st' →
      ∃ t, st'.validSwatches = st.validSwatches ++ t ∧
        List.Sublist (t.map (fun s => s.colors)) rots := by
  intro rots
  induction rots with
  | nil =>
      intro st st' _ hok
      simp only [List.foldlM_nil, pure, Except.pure, Except.ok.injEq] at hok
      exact ⟨[], by rw [← hok, List.append_nil], List.nil_sublist _⟩
  | cons r rs ih =>
      intro st st' hcanon hok
      rw [List.foldlM_cons] at hok
      cases h1 : SwatchGenerator.processRotation g wcagLevel key st r with
      | error e => rw [h1] at hok; exact absurd hok (by simp [Except.bind, bind])
      | ok st1 =>
          rw [h1] at hok
          simp only [Except.bind, bind] at hok
          obtain ⟨t1, hvs1, hsub1⟩ :=
            processRotation_sublist (hcanon r (List.mem_cons_self _ _)) h1
          obtain ⟨t2, hvs2, hsub2⟩ := ih st1 st'
            (fun rot hr => hcanon rot (List.mem_cons_of_mem _ hr)) hok
          refine ⟨t1 ++ t2, ?_, ?_⟩
          · rw [hvs2, hvs1, List.append_assoc]
          · rw [List.map_append]
            exact List.Sublist.append hsub1 hsub2

/-- Every element of a rotation of `c` is an element of `c`. -/
theorem mem_of_mem_rotation {c rot : List String} {x : String}
    (hr : rot ∈ SwatchGenerator.generateRotations c) (hx : x ∈ rot) :
    x ∈ c := by
  rw [SwatchGenerator.generateRotations, List.mem_map] at hr
  obtain ⟨i, -, rfl⟩ := hr
  rcases List.mem_append.mp hx with h | h
  · exact List.drop_subset i c h
  · exact List.take_subset i c h

/-- A successful `processCombination` appends a sublist of the
combination's rotations. -/
theorem processCombination_sublist {g : ℚ → ℚ} {wcagLevel : WcagLevel}
    {st st' : SwatchGenerator.GenState} {c : List String}
    (hcanon : ∀ x ∈ c, parseColor x = .ok x)
    (hok : SwatchGenerator.processCombination g wcagLevel st c = .ok st') :
    ∃ t, st'.validSwatches = st.validSwatches ++ t ∧
      List.Sublist (t.map (fun s => s.colors))
        (SwatchGenerator.generateRotations c) := by
  rw [SwatchGenerator.processCombination] at hok
  by_cases hmem : st.uniqueSwatches.contains
      (SwatchGenerator.getNormalizedKey c) = true
  · rw [if_pos hmem] at hok
    simp only [Except.ok.injEq] at hok
    exact ⟨[], by rw [← hok, List.append_nil], List.nil_sublist _⟩
  · rw [if_neg hmem] at hok
    obtain ⟨t, hvs, hsub⟩ := rotationsFold_sublist _ _ _
      (fun rot hr x hx => hcanon x (mem_of_mem_rotation hr hx)) hok
    exact ⟨t, hvs, hsub⟩

/-- A successful `processBatch` appends a sublist of the flattened
rotation lists of the batch. -/
theorem processBatch_sublist {g : ℚ → ℚ} {wcagLevel : WcagLevel} :
    ∀ (combs : List (List String)) (st st' : SwatchGenerator.GenState),
      (∀ c ∈ combs, ∀ x ∈ c, parseColor x = .ok x) →
      SwatchGenerator.processBatch g wcagLevel combs st = .ok st' →
      ∃ t, st'.validSwatches = st.validSwatches ++ t ∧
        List.Sublist (t.map (fun s => s.colors))
          ((combs.map SwatchGenerator.generateRotations).flatten) := by
  intro combs
  induction combs with
  | nil =>
      intro st st' _ hok
      simp only [SwatchGenerator.processBatch, List.foldlM_nil, pure,
        Except.pure, Except.ok.injEq] at hok
      exact ⟨[], by rw [← hok, List.append_nil], List.nil_sublist _⟩
  | cons c cs ih =>
      intro st st' hcanon hok
      rw [SwatchGenerator.processBatch, List.foldlM_cons] at hok
      cases h1 : SwatchGenerator.processCombination g wcagLevel st c with
      | error e => rw [h1] at hok; exact absurd hok (by simp [Except.bind, bind])
      | ok st1 =>
          rw [h1] at hok
          simp only [Except.bind, bind] at hok
          obtain ⟨t1, hvs1, hsub1⟩ :=
            processCombination_sublist (hcanon c (List.mem_cons_self _ _)) h1
          obtain ⟨t2, hvs2, hsub2⟩ := ih st1 st'
            (fun d hd => hcanon d (List.mem_cons_of_mem _ hd))
            (by rw [SwatchGenerator.processBatch]; exact hok)
          refine ⟨t1 ++ t2, ?_, ?_⟩
          · rw [hvs2, hvs1, List.append_assoc]
          · rw [List.map_append, List.map_cons, List.flatten_cons]
            exact List.Sublist.append hsub1 hsub2

/-- The rotation list of `c` written with `List.rotate`. -/
theorem generateRotations_eq_rotate (c : List String) :
    SwatchGenerator.generateRotations c =
      (List.range c.length).map (fun i => c.rotate i) := by
  rw [SwatchGenerator.generateRotations]
  apply List.map_congr_left
  intro i hi
  rw [List.mem_range] at hi
  rw [List.rotate_eq_drop_append_take (le_of_lt hi)]

/-- The rotations of a duplicate-free list are pairwise distinct. -/
theorem generateRotations_nodup {c : List String} (h : c.Nodup) :
    (SwatchGenerator.generateRotations c).Nodup := by
  rcases eq_or_ne c [] with rfl | hne
  · exact List.nodup_nil
  · rw [generateRotations_eq_rotate]
    refine List.Nodup.map_on ?_ (List.nodup_range _)
    intro i hi j hj heq
    rw [List.mem_range] at hi hj
    have := h.rotate_congr hne i j heq
    rwa [Nat.mod_eq_of_lt hi, Nat.mod_eq_of_lt hj] at this

/-- Members of the rotation list are permutations of the base list. -/
theorem perm_of_mem_rotations {c rot : List String}
    (hr : rot ∈ SwatchGenerator.generateRotations c) : rot.Perm c := by
  rw [generateRotations_eq_rotate, List.mem_map] at hr
  obtain ⟨i, -, rfl⟩ := hr
  exact List.rotate_perm c i

/-- C3 (amended): within one `processBatch` run from a fresh generator,
no color ordering is ever returned twice — returned swatches from
different (non-rotation-equivalent, duplicate-free, canonical)
combinations are never rotations of one another; but several rotations
of one and the same combination may all be returned, which is what
refutes the original claim. -/
theorem C3_no_duplicate_orderings (g : ℚ → ℚ) (wcagLevel : WcagLevel)
    (combs : List (List String)) (st : SwatchGenerator.GenState)
    (hcanon : ∀ c ∈ combs, ∀ x ∈ c, parseColor x = .ok x)
    (hnodup : ∀ c ∈ combs, c.Nodup)
    (hpw : combs.Pairwise (fun c1 c2 => ¬ c1.Perm c2))
    (hok : SwatchGenerator.processBatch g wcagLevel combs
      SwatchGenerator.initialGenState = .ok st) :
    (st.validSwatches.map (fun s => s.colors)).Nodup := by
  obtain ⟨t, hvs, hsub⟩ := processBatch_sublist combs _ st hcanon hok
  have hflat : ((combs.map SwatchGenerator.generateRotations).flatten).Nodup := by
    rw [List.nodup_flatten]
    constructor
    · intro l hl
      rw [List.mem_map] at hl
      obtain ⟨c, hc, rfl⟩ := hl
      exact generateRotations_nodup (hnodup c hc)
    · rw [List.pairwise_map]
      refine hpw.imp ?_
      intro c1 c2 hne x hx1 hx2
      exact hne ((perm_of_mem_rotations hx1).symm.trans
        (perm_of_mem_rotations hx2))
  have hvs0 : st.validSwatches = t := by
    rw [hvs]
    rfl
  rw [hvs0]
  exact hflat.sublist hsub

/-- C3 witness: the black/white batch returns pairwise-distinct
orderings. -/
theorem C3_witness :
    ∃ st, SwatchGenerator.processBatch (fun _ => 1) .AA
        [["#000000", "#FFFFFF"]] SwatchGenerator.initialGenState = .ok st ∧
      (st.validSwatches.map (fun s => s.colors)).Nodup := by
  have hfresh : SwatchGenerator.initialGenState.uniqueSwatches.contains
      (SwatchGenerator.getNormalizedKey ["#000000", "#FFFFFF"]) = false := rfl
  obtain ⟨st, hpc, hmap⟩ := processCombination_fresh hfresh
    validateSwatch_BW_rotations
  have hok : SwatchGenerator.processBatch (fun _ => 1) .AA
      [["#000000", "#FFFFFF"]] SwatchGenerator.initialGenState = .ok st := by
    rw [SwatchGenerator.processBatch, List.foldlM_cons, hpc]
    rfl
  refine ⟨st, hok, ?_⟩
  refine C3_no_duplicate_orderings (fun _ => 1) .AA [["#000000", "#FFFFFF"]]
    st ?_ ?_ ?_ hok
  · intro c hc x hx
    simp only [List.mem_cons, List.not_mem_nil, or_false] at hc
    subst hc
    simp only [List.mem_cons, List.not_mem_nil, or_false] at hx
    rcases hx with rfl | rfl <;> decide
  · intro c hc
    simp only [List.mem_cons, List.not_mem_nil, or_false] at hc
    subst hc
    decide
  · exact List.pairwise_singleton _ _

end CPG

namespace CPG

/-! ## Claim C6 (corrected) -/

namespace CacheManager

/-- `put` followed by `lookup` of the same id finds the new record. -/
theorem lookup_putEntry :
    ∀ (es : List (String × CacheEntry)) (id : String) (e : CacheEntry),
      (putEntry es id e).lookup id = some e := by
  intro es
  induction es with
  | nil =>
      intro id e
      simp [putEntry, List.lookup]
  | cons p rest ih =>
      intro id e
      rw [putEntry]
      by_cases hk : p.1 = id
      · rw [if_pos hk]
        simp [List.lookup, hk]
      · rw [if_neg hk]
        rw [List.lookup]
        have : (id == p.1) = false := beq_false_of_ne (fun h => hk h.symm)
        rw [this]
        exact ih id e

/-- The entry `storeAsset` writes: timestamp `now`, the (possibly
compressed) payload, and the compression flag that compares the stored
size against the original size. -/
theorem storeAsset_entry (cfg : Config) (compress : Data → Data)
    (fingerprint : String) (st : CMState) (now : ℕ) (key : String)
    (data : Data) :
    ((storeAsset cfg compress fingerprint st now key data).entries.lookup
        (generateCacheKey cfg fingerprint key)) =
      some { id := generateCacheKey cfg fingerprint key
             key := key
             data := if cfg.compressionEnabled && 1024 < data.length
                     then compress data else data
             meta := { originalSize := data.length
                       compressedSize :=
                         (if cfg.compressionEnabled && 1024 < data.length
                          then compress data else data).length
                       compressed := cfg.compressionEnabled &&
                         ((if cfg.compressionEnabled && 1024 < data.length
                           then compress data else data).length < data.length) }
             timestamp := now
             accessCount := 0
             lastAccessed := now
             size := (if cfg.compressionEnabled && 1024 < data.length
                      then compress data else data).length } :=
  lookup_putEntry _ _ _

end CacheManager

set_option maxRecDepth 8192 in
/-- C6 counterexample: the claim promises that a stored value is always
returned intact, transparently decompressed.  Take the lossless codec
that prepends one byte on compression and drops it on decompression
(`decompress ∘ compress = id`, the platform contract; gzip likewise can
enlarge an incompressible payload).  Storing a 1025-byte payload
triggers compression (`> 1KB`), the processed form is 1026 bytes, so
the flag `compressed := size < originalSize` is `false` while the
*processed* bytes are stored — and a fresh `retrieveAsset` returns the
1026 processed bytes verbatim, not the original value. -/
theorem C6_counterexample :
    ((fun l => List.drop 1 l) ∘ (fun l => (0 : ℕ) :: l) =
      fun l : CacheManager.Data => l) ∧
    ∃ r, (CacheManager.retrieveAsset {} (fun l => List.drop 1 l) "fp"
        (CacheManager.storeAsset {} (fun l => (0 : ℕ) :: l) "fp"
          CacheManager.emptyCMState 0 "k" (List.replicate 1025 1))
        5 "k").2 = some r ∧ r.data ≠ List.replicate 1025 1 := by
  refine ⟨funext fun l => rfl, ?_⟩
  have hlook := CacheManager.storeAsset_entry {} (fun l => (0 : ℕ) :: l) "fp"
    CacheManager.emptyCMState 0 "k" (List.replicate 1025 1)
  have hc : (({} : CacheManager.Config).compressionEnabled &&
      decide (1024 < (List.replicate 1025 1).length)) = true := by
    rw [List.length_replicate]
    rfl
  rw [if_pos hc] at hlook
  have hflag : (({} : CacheManager.Config).compressionEnabled &&
      decide (((fun l => (0 : ℕ) :: l) (List.replicate 1025 1)).length <
        (List.replicate 1025 1).length)) = false := by
    simp only [List.length_cons, List.length_replicate]
    decide
  obtain ⟨e, hlook2, hdata, hflagE, hts⟩ :
      ∃ e, (CacheManager.storeAsset {} (fun l => (0 : ℕ) :: l) "fp"
          CacheManager.emptyCMState 0 "k"
          (List.replicate 1025 1)).entries.lookup
          (CacheManager.generateCacheKey {} "fp" "k") = some e ∧
        e.data = (fun l => (0 : ℕ) :: l) (List.replicate 1025 1) ∧
        e.meta.compressed = false ∧ e.timestamp = 0 :=
    ⟨_, hlook, rfl, hflag, rfl⟩
  rw [CacheManager.retrieveAsset, hlook2]
  have hexp : CacheManager.isExpired {} 5 e = false := by
    rw [CacheManager.isExpired, hts]
    rfl
  simp only [hexp]
  refine ⟨{ data := if e.meta.compressed then (fun l => List.drop 1 l) e.data
              else e.data
            meta := e.meta, timestamp := e.timestamp }, rfl, ?_⟩
  rw [hflagE, if_neg Bool.false_ne_true, hdata]
  intro h
  have hlen := congrArg List.length h
  simp only [List.length_cons, List.length_replicate] at hlen
  omega

/-- C6 (amended): within `maxAge` of the store `retrieveAsset` finds the
entry with the stored timestamp, but the data round-trips to the
original value exactly when compression was not triggered (disabled, or
payload at most 1KB) or the compressed form is strictly smaller; a
triggered compression that fails to shrink stores the processed bytes
flagged uncompressed (`compressed := size < originalSize`), so
retrieval returns `compress v` verbatim instead of `v`.  Once `maxAge`
has elapsed both `retrieveAsset` and `hasAsset` treat the entry as
absent.  The only hypothesis is the codec contract at the stored value:
decompression inverts compression. -/
theorem C6_cache_round_trip (cfg : CacheManager.Config)
    (compress decompress : CacheManager.Data → CacheManager.Data)
    (fingerprint : String) (st : CacheManager.CMState) (t0 t : ℕ)
    (key : String) (v : CacheManager.Data)
    (hinv : decompress (compress v) = v) :
    (t - t0 ≤ cfg.maxAge →
      ∃ r, (CacheManager.retrieveAsset cfg decompress fingerprint
          (CacheManager.storeAsset cfg compress fingerprint st t0 key v)
          t key).2 = some r ∧ r.timestamp = t0 ∧
        r.data = if cfg.compressionEnabled && 1024 < v.length then
                   (if (compress v).length < v.length then v else compress v)
                 else v) ∧
    (cfg.maxAge < t - t0 →
      (CacheManager.retrieveAsset cfg decompress fingerprint
          (CacheManager.storeAsset cfg compress fingerprint st t0 key v)
          t key).2 = none ∧
      CacheManager.hasAsset cfg fingerprint
        (CacheManager.storeAsset cfg compress fingerprint st t0 key v)
        t key = false) := by
  have hlook := CacheManager.storeAsset_entry cfg compress fingerprint st t0
    key v
  set e : CacheManager.CacheEntry :=
    { id := CacheManager.generateCacheKey cfg fingerprint key
      key := key
      data := if cfg.compressionEnabled && 1024 < v.length
              then compress v else v
      meta := { originalSize := v.length
                compressedSize :=
                  (if cfg.compressionEnabled && 1024 < v.length
                   then compress v else v).length
                compressed := cfg.compressionEnabled &&
                  ((if cfg.compressionEnabled && 1024 < v.length
                    then compress v else v).length < v.length) }
      timestamp := t0
      accessCount := 0
      lastAccessed := t0
      size := (if cfg.compressionEnabled && 1024 < v.length
               then compress v else v).length } with he
  have htime : e.timestamp = t0 := rfl
  have hdata : e.data = (if cfg.compressionEnabled && 1024 < v.length
      then compress v else v) := rfl
  have hflag : e.meta.compressed = (cfg.compressionEnabled &&
      ((if cfg.compressionEnabled && 1024 < v.length
        then compress v else v).length < v.length)) := rfl
  have hpayload : (if e.meta.compressed then decompress e.data else e.data) =
      (if cfg.compressionEnabled && 1024 < v.length then
        (if (compress v).length < v.length then v else compress v)
      else v) := by
    rw [hflag, hdata]
    by_cases hc : cfg.compressionEnabled && 1024 < v.length
    · rw [if_pos hc, if_pos hc]
      by_cases hs : (compress v).length < v.length
      · have h2 : (cfg.compressionEnabled &&
            decide ((compress v).length < v.length)) = true := by
          rw [Bool.and_eq_true] at hc
          rw [hc.1, decide_eq_true hs]
          rfl
        rw [h2, if_pos rfl, if_pos hs]
        exact hinv
      · have h2 : (cfg.compressionEnabled &&
            decide ((compress v).length < v.length)) = false := by
          rw [decide_eq_false hs]
          simp
        rw [h2, if_neg Bool.false_ne_true, if_neg hs]
    · rw [if_neg hc, if_neg hc]
      have h2 : (cfg.compressionEnabled && decide (v.length < v.length)) = false := by
        rw [decide_eq_false (lt_irrefl v.length)]
        simp
      rw [h2, if_neg Bool.false_ne_true]
  constructor
  · intro hfresh
    have hexp : CacheManager.isExpired cfg t e = false := by
      rw [CacheManager.isExpired, htime]
      exact decide_eq_false (by omega)
    rw [CacheManager.retrieveAsset, hlook]
    simp only [hexp]
    exact ⟨{ data := if e.meta.compressed then decompress e.data else e.data
             meta := e.meta, timestamp := e.timestamp }, rfl, htime, hpayload⟩
  · intro hold
    have hexp : CacheManager.isExpired cfg t e = true := by
      rw [CacheManager.isExpired, htime]
      exact decide_eq_true (by omega)
    constructor
    · rw [CacheManager.retrieveAsset, hlook]
      simp only [hexp]
      rfl
    · rw [CacheManager.hasAsset, hlook]
      simp only [hexp]
      rfl

set_option maxRecDepth 8192 in
/-- C6 witness: default configuration and a codec that shrinks the
2000-byte payload `replicate 2000 7` to `[0]`, so the compression path
is exercised (`> 1KB`, strictly smaller): a retrieve at time 5 returns
the decompressed original with timestamp 0, and at `maxAge + 1` the
entry is treated as absent. -/
theorem C6_witness :
    (∃ r, (CacheManager.retrieveAsset {}
        (fun d => if d = [0] then List.replicate 2000 7 else d) "fp"
        (CacheManager.storeAsset {}
          (fun d => if d = List.replicate 2000 7 then [0] else d) "fp"
          CacheManager.emptyCMState 0 "k" (List.replicate 2000 7)) 5 "k").2 =
      some r ∧ r.timestamp = 0 ∧ r.data = List.replicate 2000 7) ∧
    ((CacheManager.retrieveAsset {}
        (fun d => if d = [0] then List.replicate 2000 7 else d) "fp"
        (CacheManager.storeAsset {}
          (fun d => if d = List.replicate 2000 7 then [0] else d) "fp"
          CacheManager.emptyCMState 0 "k" (List.replicate 2000 7))
        604800001 "k").2 = none ∧
      CacheManager.hasAsset {} "fp"
        (CacheManager.storeAsset {}
          (fun d => if d = List.replicate 2000 7 then [0] else d) "fp"
          CacheManager.emptyCMState 0 "k" (List.replicate 2000 7))
        604800001 "k" = false) := by
  have hcv : (fun d => if d = List.replicate 2000 7 then [0] else d)
      (List.replicate 2000 7) = ([0] : CacheManager.Data) := by
    simp
  have hinv : (fun d => if d = [0] then List.replicate 2000 7 else d)
      ((fun d => if d = List.replicate 2000 7 then [0] else d)
        (List.replicate 2000 7)) = List.replicate 2000 7 := by
    rw [hcv]
    simp
  have hA : (({} : CacheManager.Config).compressionEnabled &&
      decide (1024 < (List.replicate 2000 7).length)) = true := by
    rw [List.length_replicate]
    rfl
  have hB : ((fun d => if d = List.replicate 2000 7 then [0] else d)
      (List.replicate 2000 7)).length < (List.replicate 2000 7).length := by
    rw [hcv, List.length_replicate]
    norm_num
  constructor
  · obtain ⟨r, hr, ht, hd⟩ := (C6_cache_round_trip {}
        (fun d => if d = List.replicate 2000 7 then [0] else d)
        (fun d => if d = [0] then List.replicate 2000 7 else d)
        "fp" CacheManager.emptyCMState 0 5 "k" (List.replicate 2000 7)
        hinv).1 (by norm_num)
    exact ⟨r, hr, ht, hd.trans (by rw [if_pos hA, if_pos hB])⟩
  · exact (C6_cache_round_trip {}
        (fun d => if d = List.replicate 2000 7 then [0] else d)
        (fun d => if d = [0] then List.replicate 2000 7 else d)
        "fp" CacheManager.emptyCMState 0 604800001 "k" (List.replicate 2000 7)
        hinv).2 (by norm_num)

end CPG

namespace CPG

/-! ## Claim C10 (code bug) -/

/-- C10: storing twice under the same key leaves one physical entry
(IndexedDB `put` replaces it) but `storeAsset` unconditionally runs
`itemCount++` and `totalSize += size`, so the statistics double-count:
after `store k [1,2,3]; store k [4,5]` the store holds 1 entry of size
2, while the counters say 2 items of total size 3 + 2 = 5. -/
theorem C10_store_overwrite_double_counts :
    (CacheManager.storeAsset {} id "fp"
        (CacheManager.storeAsset {} id "fp" CacheManager.emptyCMState 0 "k"
          [1, 2, 3]) 1 "k" [4, 5]).entries.length = 1 ∧
    (CacheManager.storeAsset {} id "fp"
        (CacheManager.storeAsset {} id "fp" CacheManager.emptyCMState 0 "k"
          [1, 2, 3]) 1 "k" [4, 5]).stats.itemCount = 2 ∧
    (CacheManager.storeAsset {} id "fp"
        (CacheManager.storeAsset {} id "fp" CacheManager.emptyCMState 0 "k"
          [1, 2, 3]) 1 "k" [4, 5]).stats.totalSize = 5 := by
  refine ⟨?_, ?_, ?_⟩ <;> decide

/-! ## Claim C7 (corrected) -/

namespace ThreadManager

/-- After termination the pool is dead for an unsettled task id: no
worker, no queue, not initialised, the id unsettled. -/
def Dead (tid : ℕ) (s : TMState) : Prop :=
  s.initialized = false ∧ s.workerPool = [] ∧ s.taskQueue = [] ∧
    ¬ settled s tid

/-- A dead pool stays dead under every step: submission is rejected,
no worker can deliver a message, and repeated termination rejects an
empty queue. -/
theorem Dead.step {tid : ℕ} {s s' : TMState} (hd : Dead tid s)
    (hs : Step s s') : Dead tid s' := by
  obtain ⟨hinit, hpool, hqueue, hset⟩ := hd
  cases hs with
  | submit task st' h =>
      rw [executeTask, if_neg (by rw [hinit]; simp)] at h
      exact absurd h (by simp)
  | message i success =>
      rw [deliverMessage, hpool]
      simp only [List.getD_nil]
      exact ⟨hinit, hpool, hqueue, hset⟩
  | shutdown =>
      refine ⟨rfl, rfl, rfl, ?_⟩
      rw [settled] at hset ⊢
      simp only [terminate, hqueue, List.map_nil, List.append_nil]
      exact hset

/-- A dead pool stays dead along every execution. -/
theorem Dead.reach {tid : ℕ} {s s' : TMState} (hd : Dead tid s)
    (hr : Reach s s') : Dead tid s' := by
  induction hr with
  | refl => exact hd
  | tail _ hstep ih => exact ih.step hstep

end ThreadManager

/-- C7 (amended): `terminate` rejects every still-queued task with the
terminated error and clears the queue — but it also destroys every
worker immediately, so a task already dispatched to a worker (its id
unsettled and not queued) is NOT allowed to finish: no reachable state
ever settles its awaitable. -/
theorem C7_terminate_behaviour (st : ThreadManager.TMState) (tid : ℕ)
    (hbusy : ∃ w ∈ st.workerPool, w.busy = some tid)
    (hunsettled : ¬ ThreadManager.settled st tid)
    (hnotqueued : ∀ task ∈ st.taskQueue, task.id ≠ tid) :
    (∀ task ∈ st.taskQueue,
      (task.id, "Thread manager terminated") ∈
        (ThreadManager.terminate st).rejectedWith) ∧
    ((ThreadManager.terminate st).workerPool = [] ∧
     (ThreadManager.terminate st).taskQueue = []) ∧
    (∀ s', ThreadManager.Reach (ThreadManager.terminate st) s' →
      ¬ ThreadManager.settled s' tid) := by
  have hdead : ThreadManager.Dead tid (ThreadManager.terminate st) := by
    refine ⟨rfl, rfl, rfl, ?_⟩
    rw [ThreadManager.settled]
    rintro (hres | ⟨msg, hrej⟩)
    · exact hunsettled (Or.inl hres)
    · rw [ThreadManager.terminate] at hrej
      simp only [List.mem_append, List.mem_map] at hrej
      rcases hrej with h | ⟨task, htask, heq⟩
      · exact hunsettled (Or.inr ⟨msg, h⟩)
      · rw [Prod.mk.injEq] at heq
        exact hnotqueued task htask heq.1
  refine ⟨?_, ⟨rfl, rfl⟩, ?_⟩
  · intro task htask
    rw [ThreadManager.terminate]
    simp only [List.mem_append, List.mem_map]
    exact Or.inr ⟨task, htask, rfl⟩
  · intro s' hr
    exact (hdead.reach hr).2.2.2

/-- C7 witness: one worker running task 42, empty queue. -/
theorem C7_witness :
    (∀ task ∈ ({ initialized := true, taskQueue := [], workerPool := [⟨some 42⟩]
                 activeThreads := 1, resolvedIds := [], rejectedWith := [] } :
        ThreadManager.TMState).taskQueue,
      (task.id, "Thread manager terminated") ∈
        (ThreadManager.terminate
          { initialized := true, taskQueue := [], workerPool := [⟨some 42⟩]
            activeThreads := 1, resolvedIds := [],
            rejectedWith := [] }).rejectedWith) ∧
    ((ThreadManager.terminate
        { initialized := true, taskQueue := [], workerPool := [⟨some 42⟩]
          activeThreads := 1, resolvedIds := [],
          rejectedWith := [] }).workerPool = [] ∧
     (ThreadManager.terminate
        { initialized := true, taskQueue := [], workerPool := [⟨some 42⟩]
          activeThreads := 1, resolvedIds := [],
          rejectedWith := [] }).taskQueue = []) ∧
    (∀ s', ThreadManager.Reach (ThreadManager.terminate
        { initialized := true, taskQueue := [], workerPool := [⟨some 42⟩]
          activeThreads := 1, resolvedIds := [], rejectedWith := [] }) s' →
      ¬ ThreadManager.settled s' 42) :=
  C7_terminate_behaviour
    { initialized := true, taskQueue := [], workerPool := [⟨some 42⟩]
      activeThreads := 1, resolvedIds := [], rejectedWith := [] } 42
    ⟨⟨some 42⟩, List.mem_cons_self _ _, rfl⟩
    (by rw [ThreadManager.settled]; simp)
    (by intro task htask; exact absurd htask (List.not_mem_nil _))

/-- C7 counterexample: with one in-flight task (id 42), termination
leaves no worker and no reachable state ever resolves task 42 — the
in-flight task is not "allowed to finish". -/
theorem C7_counterexample :
    ((ThreadManager.terminate
        { initialized := true, taskQueue := [], workerPool := [⟨some 42⟩]
          activeThreads := 1, resolvedIds := [],
          rejectedWith := [] }).workerPool = []) ∧
    ¬ (∃ s', ThreadManager.Reach (ThreadManager.terminate
          { initialized := true, taskQueue := [], workerPool := [⟨some 42⟩]
            activeThreads := 1, resolvedIds := [], rejectedWith := [] }) s' ∧
        ThreadManager.settled s' 42) := by
  constructor
  · rfl
  · rintro ⟨s', hr, hset⟩
    have hdead : ThreadManager.Dead 42 (ThreadManager.terminate
        { initialized := true, taskQueue := [], workerPool := [⟨some 42⟩]
          activeThreads := 1, resolvedIds := [], rejectedWith := [] }) := by
      refine ⟨rfl, rfl, rfl, ?_⟩
      rw [ThreadManager.settled]
      simp [ThreadManager.terminate]
    exact (hdead.reach hr).2.2.2 hset

end CPG
